import Mathlib

/-!
# node-client: bootstrap and dispatch core of `src/index.js`

A shallow embedding of `decode`, `generateWrappers`, `addExtraNvimMethods`, `attach` and of the
`equals` and the `extTypes` hooks that `attach` gives to every synthesised type.

* JavaScript values are the inductive type `Value`.
* Library functions that are not part of the repository (`_.camelCase` of lodash,
  `Buffer.prototype.toString('utf8')` of Node and the `toString` of other JavaScript values)
  are fields of `Env`; every definition
  that reaches them takes an `Env`, and every theorem holds for all of them. `_.capitalize` is
  defined here for ASCII strings, since the owner test compares its result with string
  literals, and is a field of `Env` for the other strings.
* `traverse(obj).forEach` is embedded as the pre-order, in-place walk it performs; `visit` is
  the walk below the root and `decode` adds what differs at the root.
* The event-driven part of `attach` is a step function on `State`: one `Input` is one thing the
  transport (the msgpack5rpc `Session`) does to the listeners that `attach` registered.
* `new Function(text)` either throws a `SyntaxError` or yields a function. The texts are built
  here as the source builds them (`methodText`, `typeText`); whether a text is accepted is the
  field `parses` of `Env`. For an accepted text a `Method` records the pieces the text is built
  from, and `invoke` binds the formal parameters by position, which is what the text denotes
  when its parameter names are pairwise distinct and none is `cb` or `_this`.
-/

namespace NodeClient

/-! ## Values -/

/-- JavaScript values that reach the client. `buf` is a Node `Buffer` (its bytes), `session` an
instance of the msgpack5rpc `Session`, `func` a function (identified by a number), `handle` an
instance of one of the constructors synthesised in `attach` (fields `_session`, `_data`,
`_decode`; only `_data` varies). -/
inductive Value where
  | undefined
  | null
  | bool (b : Bool)
  | num (n : Int)
  | str (s : String)
  | buf (bytes : List Nat)
  | session
  | func (id : Nat)
  | arr (items : List Value)
  | obj (fields : List (String × Value))
  | handle (typeName : String) (data : Value)
  deriving Repr, Inhabited

/-- Library functions used by `src/index.js` that live outside the repository. -/
structure Env where
  /-- lodash `_.camelCase`. -/
  camelCase : String → String
  /-- Node `buffer.toString('utf8')`; it returns a string for every buffer. -/
  toStringUtf8 : List Nat → String
  /-- JavaScript `x.toString()` for a value `x` that is neither `undefined`, `null`, a string nor
  a `Buffer`; `none` when the call throws. -/
  toStringOther : Value → Option String
  /-- lodash `_.capitalize` for a string that holds a character outside ASCII. -/
  capitalizeOther : String → String
  /-- Whether `new Function(text)` accepts `text`: `false` when it throws a `SyntaxError`. -/
  parses : String → Bool

/-- JavaScript truthiness (`ToBoolean`), as used by `if (!cb)` and `if (err)`. -/
def truthy : Value → Bool
  | .undefined => false
  | .null => false
  | .bool b => b
  | .num n => n != 0
  | .str s => s != ""
  | _ => true

/-! ## decode (lines 16-26) -/

mutual
/-- The `traverse(obj).forEach` callback at a node below the root, followed by the walk into the
node's children: the result is what the parent holds at that key afterwards. A `Session` is put
back and not entered (`this.update(item, true)`), a `Buffer` is replaced by its `toString('utf8')`,
arrays, objects and handles are walked in place, key by key. -/
def visit (E : Env) : Value → Value
  | .session => .session
  | .buf b => .str (E.toStringUtf8 b)
  | .arr xs => .arr (visitList E xs)
  | .obj fs => .obj (visitFields E fs)
  | .handle t d => .handle t (visit E d)
  | v => v
/-- The walk over the elements of an array. -/
def visitList (E : Env) : List Value → List Value
  | [] => []
  | x :: xs => visit E x :: visitList E xs
/-- The walk over the own keys of an object. -/
def visitFields (E : Env) : List (String × Value) → List (String × Value)
  | [] => []
  | (k, v) :: fs => (k, visit E v) :: visitFields E fs
end

/-- `decode(obj)`: walks `obj` in place and returns `obj`. At the root `this.update(x)` only
changes the walker's own state (there is no parent to assign into), so a root `Buffer` comes back
as it went in; below the root `visit` applies. -/
def decode (E : Env) (obj : Value) : Value :=
  match obj with
  | .buf b => .buf b
  | v => visit E v

/-! ## Names (lines 31-36) -/

/-- `name.split('_')`. -/
def split (s : String) : List String :=
  (s.toList.splitOn '_').map String.mk

/-- `parts.join('_')`. -/
def join (parts : List String) : String :=
  String.mk (List.intercalate ['_'] (parts.map String.toList))

/-- lodash `_.capitalize` on an ASCII string: the first character in upper case, the remaining
ones in lower case. -/
def capitalizeAscii (s : String) : String :=
  match s.toList.map Char.toLower with
  | [] => ""
  | c :: cs => String.mk (c.toUpper :: cs)

/-- Whether every character of the string is an ASCII character. -/
def isAscii (s : String) : Bool :=
  s.toList.all (fun c => c.toNat < 128)

/-- lodash `_.capitalize`: computed for an ASCII string, taken from `Env` for any other. -/
def capitalize (E : Env) (s : String) : String :=
  if isAscii s then capitalizeAscii s else E.capitalizeOther s

/-- `parts.join(sep)`. -/
def joinWith (sep : String) (parts : List String) : String :=
  String.mk (List.intercalate sep.toList (parts.map String.toList))

/-- The first segment of a name: `parts[0]`. -/
def firstSegment (name : String) : String :=
  (split name).headD ""

/-- The value of `typeName` on line 32. -/
def typeNameOf (E : Env) (name : String) : String :=
  capitalize E (firstSegment name)

/-- The test of line 41: the owner is the `Nvim` class. -/
def isGlobal (typeName : String) : Bool :=
  typeName == "Nvim" || typeName == "Vim" || typeName == "Ui"

/-! ## generateWrappers (lines 28-79) -/

/-- One entry of `metadata.functions`; `parameters` are pairs `[type, name]`. -/
structure FunctionSpec where
  name : String
  parameters : List (String × String)
  return_type : String
  deferred : Bool
  can_fail : Bool
  deriving Repr, DecidableEq

/-- The decoded metadata document: `functions` and the `types` map (name to extension code). -/
structure Metadata where
  functions : List FunctionSpec
  types : List (String × Nat)
  deriving Repr, DecidableEq

/-- The class whose prototype receives a method: `Nvim` or one of the synthesised types. -/
inductive Owner where
  | facade
  | ext (typeName : String)
  deriving Repr, DecidableEq

/-- The object assigned to `method.metadata` (lines 66-76). -/
structure MethodInfo where
  name : String
  deferred : Bool
  returnType : String
  parameters : List String
  parameterTypes : List String
  canFail : Bool
  deriving Repr, DecidableEq

/-- A generated method: the pieces of the text given to `new Function` on lines 52-65.
`name` and `params` are the function name and formal parameters, `wireName` the string in the
`notify` and `request` calls, `passThis` whether `callArgs` starts with `this`, `callParams` the
parameter names that follow in `callArgs`. -/
structure Method where
  name : String
  params : List String
  wireName : String
  passThis : Bool
  callParams : List String
  metadata : MethodInfo
  deriving Repr, DecidableEq

/-- An exception that leaves the code. -/
inductive Thrown where
  | typeError (msg : String)
  | syntaxError (msg : String)
  deriving Repr, DecidableEq

/-- The text given to `new Function` on lines 52-64, from `methodName`, the formal parameters
`params` (`args.concat(['cb'])`), `func.name` and the entries of `callArgs`. -/
def methodText (methodName : String) (params : List String) (name : String)
    (callArgs : List String) : String :=
  "return function " ++ methodName ++ "(" ++ joinWith ", " params ++ ") \x7b" ++
  "\n  if (!cb) \x7b" ++
  "\n    this._session.notify(\"" ++ name ++ "\", [" ++ joinWith ", " callArgs ++ "]);" ++
  "\n    return;" ++
  "\n  \x7d" ++
  "\n  var _this = this;" ++
  "\n  this._session.request(\"" ++ name ++
      "\", [" ++ joinWith ", " callArgs ++ "], function(err, res) \x7b" ++
  "\n     if (err) return cb(new Error(err[1]));" ++
  "\n     cb(null, _this._decode(res));" ++
  "\n   \x7d);" ++
  "\n\x7d;"

/-- The text given to `new Function` on lines 137-143, for the type `name`. -/
def typeText (name : String) : String :=
  "return function " ++ name ++ "(session, data, decode) \x7b " ++
  "\n  this._session = session;" ++
  "\n  this._data = data;" ++
  "\n  this._decode = decode;" ++
  "\n\x7d;"

/-- What one iteration of the loop computes: `Type` (`none` when `types[typeName]` is
undefined), `methodName`, the text given to `new Function` and, for an accepted text, the
`method` it yields. -/
structure Wrapper where
  owner : Option Owner
  methodName : String
  text : String
  method : Method
  deriving Repr, DecidableEq

/-- The body of the loop of `generateWrappers` up to line 76, for one `func`; `types` holds the
keys of the `types` object. -/
def makeWrapper (E : Env) (types : List String) (func : FunctionSpec) : Wrapper :=
  let parts := split func.name
  let typeName := capitalize E (parts.headD "")
  -- `parts.slice(typeName !== 'Ui')`: `slice(true)` is `slice(1)`, `slice(false)` is `slice(0)`
  let methodName := E.camelCase (join (parts.drop (if typeName != "Ui" then 1 else 0)))
  let names := func.parameters.map Prod.snd
  let global := isGlobal typeName
  let owner : Option Owner :=
    if global then some Owner.facade
    else if typeName ∈ types then some (Owner.ext typeName) else none
  let args := if global then names else names.drop 1
  let parameterTypes := func.parameters.map Prod.fst
  { owner := owner
    methodName := methodName
    text :=
      methodText methodName (args ++ ["cb"]) func.name (if global then args else "this" :: args)
    method :=
      { name := methodName
        params := args ++ ["cb"]
        wireName := func.name
        passThis := !global
        callParams := args
        metadata :=
          { name := methodName
            deferred := func.deferred
            returnType := func.return_type
            parameters := args ++ ["cb"]
            parameterTypes := if typeName == "Nvim" then parameterTypes.drop 1 else parameterTypes
            canFail := func.can_fail } } }

/-- One assignment `Type.prototype[methodName] = method` (line 77). -/
structure Attachment where
  owner : Owner
  methodName : String
  method : Method
  deriving Repr, DecidableEq

/-- The outcome of `generateWrappers`: the assignments made, in order, and the exception that
ended the loop early, if any. -/
structure Generated where
  attached : List Attachment
  error : Option Thrown
  deriving Repr, DecidableEq

/-- `generateWrappers(Nvim, types, metadata)`: the loop over `metadata.functions`. When the text
of a method is not accepted, `new Function` throws a `SyntaxError` on line 52; when `Type` is
undefined, line 77 throws a `TypeError`. In both cases the remaining functions are not
reached. -/
def generateWrappers (E : Env) (types : List String) : List FunctionSpec → Generated
  | [] => { attached := [], error := none }
  | func :: rest =>
    let w := makeWrapper E types func
    if E.parses w.text then
      match w.owner with
      | none =>
        { attached := []
          error := some (Thrown.typeError "Cannot read property prototype of undefined") }
      | some o =>
        let g := generateWrappers E types rest
        { attached := { owner := o, methodName := w.methodName, method := w.method } :: g.attached
          error := g.error }
    else
      { attached := [], error := some (Thrown.syntaxError "Unexpected token") }

/-! ## Calling a generated method (lines 52-65) -/

/-- A call made on `this._session`. -/
inductive TransportCall where
  | notify (name : String) (args : List Value)
  | request (name : String) (args : List Value) (cb : Value)
  deriving Repr

/-- What a call of a generated method does: the calls made on the session and the value
returned. -/
structure CallResult where
  calls : List TransportCall
  returned : Value
  deriving Repr

/-- The values of the first `n` formal parameters for the actual arguments `actuals`: a missing
argument is `undefined`, surplus arguments are not bound. -/
def bindParams (n : Nat) (actuals : List Value) : List Value :=
  (List.range n).map (fun i => actuals.getD i Value.undefined)

/-- A call `method.apply(this, actuals)` of a generated method. The formal `cb` is the one after
`callParams`. -/
def invoke (m : Method) (this : Value) (actuals : List Value) : CallResult :=
  let cb := actuals.getD m.callParams.length Value.undefined
  let callArgs := (if m.passThis then [this] else []) ++ bindParams m.callParams.length actuals
  if !truthy cb then
    { calls := [TransportCall.notify m.wireName callArgs], returned := Value.undefined }
  else
    { calls := [TransportCall.request m.wireName callArgs cb], returned := Value.undefined }

/-- The object built by `new Error(x)`, with the `x` it was given. -/
structure JsError where
  message : Value
  deriving Repr

/-- What the function handed to `this._session.request` does when the transport calls it. -/
inductive Outcome where
  | calledWithError (fn : Nat) (e : JsError)
  | calledWithResult (fn : Nat) (res : Value)
  | threw (t : Thrown)
  deriving Repr

/-- The function of lines 60-63, for the `cb` of the call: `err` is `none` for a falsy `err` and
the error payload (a sequence) otherwise. Calling a `cb` that is not a function throws. -/
def onReply (E : Env) (cb : Value) (err : Option (List Value)) (res : Value) : Outcome :=
  match cb with
  | .func fn =>
    match err with
    | some e => Outcome.calledWithError fn { message := e.getD 1 Value.undefined }
    | none => Outcome.calledWithResult fn (decode E res)
  | _ => Outcome.threw (Thrown.typeError "cb is not a function")

/-- The transport completing a call: the callback of a `request` runs with `(err, res)`; a
`notify` has no callback. -/
def TransportCall.complete (E : Env) (c : TransportCall) (err : Option (List Value))
    (res : Value) : Option Outcome :=
  match c with
  | .request _ _ cb => some (onReply E cb err res)
  | .notify _ _ => none

/-! ## Prototypes -/

/-- A member of a prototype: a synthesised constructor (`Nvim.prototype[name] = Type`), the
`equals` of a synthesised type, a generated method, or `quit`. -/
inductive Member where
  | typeCtor (name : String)
  | equals
  | method (m : Method)
  | quit
  deriving Repr, DecidableEq

/-- The prototypes of `Nvim` and of the synthesised types, as the list of assignments made, the
latest first. -/
abbrev Proto := List ((Owner × String) × Member)

/-- The assignment `owner.prototype[key] = member`. -/
def Proto.assign (p : Proto) (owner : Owner) (key : String) (member : Member) : Proto :=
  ((owner, key), member) :: p

/-- The member read as `owner.prototype[key]`. -/
def Proto.lookup (p : Proto) (owner : Owner) (key : String) : Option Member :=
  (List.find? (fun e => e.1 == (owner, key)) p).map Prod.snd

/-- One iteration of the loop of lines 135-163: a fresh constructor `Type` with its `equals`,
stored in `types[name]` and in `Nvim.prototype[name]`. -/
def registerType (p : Proto) (name : String) : Proto :=
  Proto.assign
    (Proto.assign (List.filter (fun e => e.1.1 != Owner.ext name) p) (Owner.ext name) "equals"
      Member.equals)
    Owner.facade name (Member.typeCtor name)

/-- The outcome of the loop of lines 135-163: the types registered, in order, and the exception
that ended the loop early, if any. -/
structure Registered where
  registered : List String
  error : Option Thrown
  deriving Repr, DecidableEq

/-- The loop of lines 135-163 over `Object.keys(metadata.types)`: when the text of a constructor
is not accepted, `new Function` throws a `SyntaxError` on line 137 and the remaining types are
not reached. -/
def registerTypes (E : Env) : List String → Registered
  | [] => { registered := [], error := none }
  | name :: rest =>
    if E.parses (typeText name) then
      { registered := name :: (registerTypes E rest).registered
        error := (registerTypes E rest).error }
    else
      { registered := [], error := some (Thrown.syntaxError "Unexpected token") }

/-- The assignments of `generateWrappers`, applied in order. -/
def applyAttachments (p : Proto) (as : List Attachment) : Proto :=
  as.foldl (fun q a => Proto.assign q a.owner a.methodName (Member.method a.method)) p

/-- `addExtraNvimMethods(Nvim)` (lines 81-85). -/
def addExtraNvimMethods (p : Proto) : Proto :=
  Proto.assign p Owner.facade "quit" Member.quit

/-! ## attach (lines 87-185) -/

/-- An entry of `pendingRPCs`: `type` and the arguments the listener was called with. -/
inductive Pending where
  | request (method args : Value) (resp : Nat)
  | notification (method args : Value)
  deriving Repr

/-- An event emitted on `nvim`. -/
inductive Emitted where
  | request (method args : Value) (resp : Nat)
  | notification (method args : Value)
  | disconnect
  deriving Repr

/-- A call of the completion callback `cb`: `cb(null, nvim)` or `cb(err)`. -/
inductive CbCall where
  | facade
  | error (err : List Value)
  deriving Repr

/-- The listeners that `attach` registers on the session. Among the `request` listeners `queue`
is `queueRequests` and `direct` the function of line 171; among the `notification` listeners
`queue` is `queueNotifications` and `direct` the function of line 176. -/
inductive Listener where
  | queue
  | direct
  deriving Repr, DecidableEq

/-- The value `res` of a metadata response: `res[0]` and the decoded `res[1]`. -/
structure ApiInfo where
  channel_id : Value
  metadata : Metadata
  deriving Repr

/-- What the transport does: it emits `request`, `notification` or `detach`, or it calls the
callback of the `vim_get_api_info` request (`err` is `none` when falsy). -/
inductive Input where
  | request (method args : Value) (resp : Nat)
  | notification (method args : Value)
  | detach
  | apiInfo (err : Option (List Value)) (res : ApiInfo)
  deriving Repr

/-- The mutable state that `attach` creates and its callbacks share. `emitted` holds the events
emitted on `nvim`, `shadowed` the calls `nvim.emit(...)` that reached a member `emit` of
`Nvim.prototype` instead of the `emit` of `EventEmitter`. -/
structure State where
  requestListeners : List Listener
  notificationListeners : List Listener
  pendingRPCs : List Pending
  emitted : List Emitted
  shadowed : List Emitted
  cbCalls : List CbCall
  proto : Proto
  extTypes : List (String × Nat)
  thrown : List Thrown
  deriving Repr

/-- The call `nvim.emit(...)`. `Nvim.prototype` inherits `emit` from `EventEmitter` and comes
first in the lookup: once line 77 or line 162 has assigned a member under the name `emit`, that
member is called with the arguments and no event is emitted. The call is recorded in `shadowed`;
what the member does with it (a generated method calls the transport, a constructor assigns
fields of `nvim`) is not followed further. -/
def facadeEmit (s : State) (e : Emitted) : State :=
  match Proto.lookup s.proto Owner.facade "emit" with
  | none => { s with emitted := s.emitted ++ [e] }
  | some _ => { s with shadowed := s.shadowed ++ [e] }

/-- The test `method !== 'specs'` is false exactly for the string `'specs'`. -/
def isSpecs : Value → Bool
  | .str s => s == "specs"
  | _ => false

/-- `emitter.removeListener(name, l)`: removes the most recently added instance of `l`. -/
def removeListener (l : Listener) (ls : List Listener) : List Listener :=
  (ls.reverse.erase l).reverse

/-- `nvim.emit.apply(nvim, Array.prototype.concat(pending.type, pending.args))` (line 182). -/
def Pending.replay : Pending → Emitted
  | .request m a r => Emitted.request m a r
  | .notification m a => Emitted.notification m a

/-- `queueRequests` (lines 93-102). -/
def queueRequests (E : Env) (s : State) (method args : Value) (resp : Nat) : State :=
  if !isSpecs method then
    { s with pendingRPCs := s.pendingRPCs ++ [Pending.request method args resp] }
  else
    facadeEmit s (Emitted.request (decode E method) (decode E args) resp)

/-- `queueNotifications` (lines 103-108). -/
def queueNotifications (s : State) (method args : Value) : State :=
  { s with pendingRPCs := s.pendingRPCs ++ [Pending.notification method args] }

/-- The `request` listener registered on line 171. -/
def emitRequest (E : Env) (s : State) (method args : Value) (resp : Nat) : State :=
  facadeEmit s (Emitted.request (decode E method) (decode E args) resp)

/-- The `notification` listener registered on line 176. -/
def emitNotification (E : Env) (s : State) (method args : Value) : State :=
  facadeEmit s (Emitted.notification (decode E method) (decode E args))

/-- A `request` listener called with `(method, args, resp)`. -/
def onRequest (E : Env) (s : State) (l : Listener) (method args : Value) (resp : Nat) : State :=
  match l with
  | .queue => queueRequests E s method args resp
  | .direct => emitRequest E s method args resp

/-- A `notification` listener called with `(method, args)`. -/
def onNotification (E : Env) (s : State) (l : Listener) (method args : Value) : State :=
  match l with
  | .queue => queueNotifications s method args
  | .direct => emitNotification E s method args

/-- The `detach` listener (lines 118-122). -/
def onDetach (s : State) : State :=
  facadeEmit { s with requestListeners := [], notificationListeners := [] } Emitted.disconnect

/-- The callback of the `vim_get_api_info` request (lines 124-184). -/
def onApiInfo (E : Env) (s : State) (err : Option (List Value)) (res : ApiInfo) : State :=
  match err with
  | some e => { s with cbCalls := s.cbCalls ++ [CbCall.error e] }
  | none =>
    let r := registerTypes E (res.metadata.types.map Prod.fst)
    let p := r.registered.foldl registerType s.proto
    match r.error with
    | some t => { s with proto := p, thrown := s.thrown ++ [t] }
    | none =>
      let g := generateWrappers E r.registered res.metadata.functions
      match g.error with
      | some t => { s with proto := applyAttachments p g.attached, thrown := s.thrown ++ [t] }
      | none =>
        s.pendingRPCs.foldl (fun t pending => facadeEmit t pending.replay)
          { s with
            proto := addExtraNvimMethods (applyAttachments p g.attached)
            extTypes := s.extTypes ++ res.metadata.types
            requestListeners :=
              removeListener Listener.queue s.requestListeners ++ [Listener.direct]
            notificationListeners :=
              removeListener Listener.queue s.notificationListeners ++ [Listener.direct] }

/-- One action of the transport: an emitted event reaches every registered listener in the order
of registration. -/
def step (E : Env) (s : State) : Input → State
  | .request m a r => s.requestListeners.foldl (fun t l => onRequest E t l m a r) s
  | .notification m a => s.notificationListeners.foldl (fun t l => onNotification E t l m a) s
  | .detach => onDetach s
  | .apiInfo err res => onApiInfo E s err res

/-- The state when `attach(writer, reader, cb)` returns: `cb(null, nvim)` has been called and the
queueing listeners are registered. `proto` is empty: no metadata response has been processed in
the process yet, so that the prototypes hold no synthesised member. -/
def attach : State :=
  { requestListeners := [Listener.queue]
    notificationListeners := [Listener.queue]
    pendingRPCs := []
    emitted := []
    shadowed := []
    cbCalls := [CbCall.facade]
    proto := []
    extTypes := []
    thrown := [] }

/-- The state after the transport has done `inputs`, in order. -/
def run (E : Env) (s : State) (inputs : List Input) : State :=
  inputs.foldl (step E) s

/-! ## Vocabulary of the statements -/

/-- An inbound message: a request with its responder, or a notification. -/
inductive Inbound where
  | request (method args : Value) (resp : Nat)
  | notification (method args : Value)
  deriving Repr

/-- The two kinds of inbound message and of the events emitted for them. -/
inductive Kind where
  | request
  | notification
  deriving Repr, DecidableEq

/-- The method name of an inbound message. -/
def Inbound.method : Inbound → Value
  | .request m _ _ => m
  | .notification m _ => m

/-- The kind of an inbound message. -/
def Inbound.kind : Inbound → Kind
  | .request _ _ _ => Kind.request
  | .notification _ _ => Kind.notification

/-- The transport delivering an inbound message. -/
def Inbound.toInput : Inbound → Input
  | .request m a r => Input.request m a r
  | .notification m a => Input.notification m a

/-- The entry of `pendingRPCs` that holds the message. -/
def Inbound.toPending : Inbound → Pending
  | .request m a r => Pending.request m a r
  | .notification m a => Pending.notification m a

/-- Whether the processing of a metadata response runs to its end: neither the loop over the
types nor wrapper generation throws. -/
def bootstrapCompletes (E : Env) (res : ApiInfo) : Prop :=
  (registerTypes E (res.metadata.types.map Prod.fst)).error = none ∧
  (generateWrappers E (registerTypes E (res.metadata.types.map Prod.fst)).registered
    res.metadata.functions).error = none

/-- Whether `nvim.emit` is still the `emit` of `EventEmitter`: `Nvim.prototype` has no member of
that name. -/
def State.inheritsEmit (s : State) : Prop :=
  Proto.lookup s.proto Owner.facade "emit" = none

/-- Whether the processing of a metadata response, run to its end from the members `p` of the
prototypes, leaves `Nvim.prototype` without a member `emit`: no type and no method of the facade
carries that name. -/
def keepsEmit (E : Env) (res : ApiInfo) (p : Proto) : Prop :=
  Proto.lookup
    (addExtraNvimMethods
      (applyAttachments
        ((registerTypes E (res.metadata.types.map Prod.fst)).registered.foldl registerType p)
        (generateWrappers E (registerTypes E (res.metadata.types.map Prod.fst)).registered
          res.metadata.functions).attached))
    Owner.facade "emit" = none

/-- The call `cb(err)` made for a metadata response that carries an error. -/
def Input.failure : Input → Option CbCall
  | .apiInfo (some e) _ => some (CbCall.error e)
  | _ => none

/-- The event of the same kind that carries the message as it is. -/
def Inbound.asEvent : Inbound → Emitted
  | .request m a r => Emitted.request m a r
  | .notification m a => Emitted.notification m a

/-- The message with the Recursive Decoder applied to the method name and to the arguments. -/
def Inbound.decoded (E : Env) : Inbound → Inbound
  | .request m a r => Inbound.request (decode E m) (decode E a) r
  | .notification m a => Inbound.notification (decode E m) (decode E a)

/-- The kind of an emitted event (`none` for `disconnect`). -/
def Emitted.kind : Emitted → Option Kind
  | .request _ _ _ => some Kind.request
  | .notification _ _ => some Kind.notification
  | .disconnect => none

/-- Whether an event is a `request` or `notification` event. -/
def Emitted.isDispatch (e : Emitted) : Bool :=
  e.kind.isSome

/-- Whether the state is Buffering: the queueing listeners, and only they, are registered. -/
def State.buffering (s : State) : Prop :=
  s.requestListeners = [Listener.queue] ∧ s.notificationListeners = [Listener.queue]

/-- Whether the state is Direct: the listeners of lines 171-178, and only they, are registered. -/
def State.direct (s : State) : Prop :=
  s.requestListeners = [Listener.direct] ∧ s.notificationListeners = [Listener.direct]

/-- The reserved words of JavaScript, which are not identifiers. -/
def reservedWords : List String :=
  ["break", "case", "catch", "class", "const", "continue", "debugger", "default", "delete", "do",
    "else", "enum", "export", "extends", "false", "finally", "for", "function", "if", "import",
    "in", "instanceof", "new", "null", "return", "super", "switch", "this", "throw", "true", "try",
    "typeof", "var", "void", "while", "with"]

/-- Whether the characters form an identifier of JavaScript, for ASCII characters. -/
def isIdentifier (cs : List Char) : Bool :=
  match cs with
  | [] => false
  | c :: rest =>
    (c.isAlpha || c == '_' || c == '$') &&
    rest.all (fun d => d.isAlphanum || d == '_' || d == '$') &&
    !reservedWords.contains (String.mk cs)

/-- A sample of `new Function` for the texts of `methodText` and `typeText` built from ASCII
names: the text is accepted when the function name is empty or an identifier and every formal
parameter is an identifier. -/
def sampleParses (text : String) : Bool :=
  let cs := text.toList.drop 16
  let name := cs.takeWhile (fun c => c != '(')
  let params := ((cs.dropWhile (fun c => c != '(')).drop 1).takeWhile (fun c => c != ')')
  (name.isEmpty || isIdentifier name) &&
    ((params.filter (fun c => c != ' ')).splitOn ',').all isIdentifier

/-- A sample `Env`: `camelCase` for names made of words separated by underscores, each word an
optional capital followed by lower-case letters (where lodash yields the first word in lower case
followed by the capitalised others), `toStringUtf8` for bytes below 128 (where UTF-8 is ASCII),
`toStringOther` for booleans and plain objects, `capitalizeOther` for strings without letters
outside ASCII, `parses` as `sampleParses`. -/
def sampleEnv : Env :=
  { camelCase := fun s =>
      match (split s).filter (fun w => w != "") with
      | [] => ""
      | w :: ws => String.join (String.mk (w.toList.map Char.toLower) :: ws.map capitalizeAscii)
    toStringUtf8 := fun bytes => String.mk (bytes.map Char.ofNat)
    toStringOther := fun v =>
      match v with
      | .bool true => some "true"
      | .bool false => some "false"
      | _ => some "[object Object]"
    capitalizeOther := capitalizeAscii
    parses := sampleParses }

/-- The metadata entry of `buffer_get_line`. -/
def bufferGetLine : FunctionSpec :=
  { name := "buffer_get_line"
    parameters := [("Buffer", "buffer"), ("Integer", "index")]
    return_type := "String"
    deferred := false
    can_fail := true }

/-- The metadata entry of `nvim_command`. -/
def nvimCommand : FunctionSpec :=
  { name := "nvim_command"
    parameters := [("String", "command")]
    return_type := "void"
    deferred := false
    can_fail := true }

/-- The metadata entry of `ui_try_resize`. -/
def uiTryResize : FunctionSpec :=
  { name := "ui_try_resize"
    parameters := [("Integer", "width"), ("Integer", "height")]
    return_type := "Object"
    deferred := false
    can_fail := true }

/-- A small metadata response: the three functions above and the type `Buffer`. -/
def sampleInfo : ApiInfo :=
  { channel_id := Value.num 1
    metadata :=
      { functions := [bufferGetLine, nvimCommand, uiTryResize]
        types := [("Buffer", 0)] } }

/-! ## UTF-8 -/

/-- The UTF-8 encoding of a character, as a list of bytes. -/
def utf8EncodeChar (c : Char) : List Nat :=
  let n := c.toNat
  if n < 0x80 then [n]
  else if n < 0x800 then [0xC0 + n / 64, 0x80 + n % 64]
  else if n < 0x10000 then [0xE0 + n / 4096, 0x80 + n / 64 % 64, 0x80 + n % 64]
  else [0xF0 + n / 262144, 0x80 + n / 4096 % 64, 0x80 + n / 64 % 64, 0x80 + n % 64]

/-- The UTF-8 encoding of a list of characters. -/
def utf8EncodeChars : List Char → List Nat
  | [] => []
  | c :: cs => utf8EncodeChar c ++ utf8EncodeChars cs

/-- The bytes that encode the text `s` in UTF-8: a byte sequence is valid UTF-8 exactly when it is
`utf8Bytes s` for a text `s`, the text it encodes. -/
def utf8Bytes (s : String) : List Nat :=
  utf8EncodeChars s.toList

/-- The state of the UTF-8 decoder of the WHATWG Encoding Standard. -/
structure Utf8State where
  codePoint : Nat
  bytesSeen : Nat
  bytesNeeded : Nat
  lower : Nat
  upper : Nat
  deriving Repr, DecidableEq

/-- The decoder state between two characters. -/
def Utf8State.init : Utf8State :=
  { codePoint := 0, bytesSeen := 0, bytesNeeded := 0, lower := 0x80, upper := 0xBF }

/-- U+FFFD, which stands for each error in the decoded text. -/
def replacementChar : Char := Char.ofNat 0xFFFD

/-- The decoder reading the byte `b` when no character is under way: the next state and the
characters produced. -/
def utf8Lead (b : Nat) : Utf8State × List Char :=
  if b ≤ 0x7F then (Utf8State.init, [Char.ofNat b])
  else if 0xC2 ≤ b ∧ b ≤ 0xDF then
    ({ Utf8State.init with bytesNeeded := 1, codePoint := b - 0xC0 }, [])
  else if 0xE0 ≤ b ∧ b ≤ 0xEF then
    ({ codePoint := b - 0xE0, bytesSeen := 0, bytesNeeded := 2
       lower := if b = 0xE0 then 0xA0 else 0x80
       upper := if b = 0xED then 0x9F else 0xBF }, [])
  else if 0xF0 ≤ b ∧ b ≤ 0xF4 then
    ({ codePoint := b - 0xF0, bytesSeen := 0, bytesNeeded := 3
       lower := if b = 0xF0 then 0x90 else 0x80
       upper := if b = 0xF4 then 0x8F else 0xBF }, [])
  else (Utf8State.init, [replacementChar])

/-- The decoder reading the byte `b` in the state `st`. A byte that cannot continue the character
under way yields U+FFFD and is read again as the start of a character. -/
def utf8Step (st : Utf8State) (b : Nat) : Utf8State × List Char :=
  if st.bytesNeeded = 0 then utf8Lead b
  else if b < st.lower ∨ st.upper < b then
    ((utf8Lead b).1, replacementChar :: (utf8Lead b).2)
  else if st.bytesSeen + 1 = st.bytesNeeded then
    (Utf8State.init, [Char.ofNat (st.codePoint * 64 + (b - 0x80))])
  else
    ({ codePoint := st.codePoint * 64 + (b - 0x80), bytesSeen := st.bytesSeen + 1
       bytesNeeded := st.bytesNeeded, lower := 0x80, upper := 0xBF }, [])

/-- The decoder reading `bytes` to the end; a character still under way at the end yields
U+FFFD. -/
def utf8Run : Utf8State → List Nat → List Char
  | st, [] => if st.bytesNeeded = 0 then [] else [replacementChar]
  | st, b :: bs => (utf8Step st b).2 ++ utf8Run (utf8Step st b).1 bs

/-- Node `buffer.toString('utf8')` as documented: the text for valid UTF-8, with U+FFFD in place
of every error otherwise (WHATWG UTF-8 decoder, without byte order mark handling). -/
def utf8Decode (bytes : List Nat) : String :=
  String.mk (utf8Run Utf8State.init bytes)

/-- The sample `Env` with the UTF-8 decoder as `toStringUtf8`, for all bytes. -/
def nodeEnv : Env :=
  { sampleEnv with toStringUtf8 := utf8Decode }

/-! ## Extension types (lines 135-163) -/

/-- The property read `x._data`: `none` when the read throws (`x` is `undefined` or `null`),
`undefined` when `x` has no such member. -/
def getData : Value → Option Value
  | .undefined => none
  | .null => none
  | .handle _ d => some d
  | .obj fs => some ((fs.lookup "_data").getD Value.undefined)
  | _ => some Value.undefined

/-- The call `d.toString()`: `none` when it throws. -/
def toStringOf (E : Env) : Value → Option String
  | .undefined => none
  | .null => none
  | .str s => some s
  | .buf b => some (E.toStringUtf8 b)
  | v => E.toStringOther v

/-- The expression `x._data.toString()`: `none` when it throws. -/
def dataString (E : Env) (x : Value) : Option String :=
  (getData x).bind (toStringOf E)

/-- `Type.prototype.equals` (lines 144-150), called as `this.equals(other)`: an exception in the
`try` block gives `false`. -/
def equals (E : Env) (this other : Value) : Bool :=
  match dataString E this, dataString E other with
  | some a, some b => a == b
  | _, _ => false

/-- The `decode` hook of an `extTypes` entry (line 157): `new Type(session, data, decode)`. -/
def extDecode (typeName : String) (data : Value) : Value :=
  Value.handle typeName data

/-- The `encode` hook of an `extTypes` entry (line 158): `obj._data`. -/
def extEncode (obj : Value) : Option Value :=
  getData obj

/-- Whether a value is a handle or an object with a `_data` key. -/
def hasData : Value → Bool
  | .handle _ _ => true
  | .obj fs => (fs.lookup "_data").isSome
  | _ => false

/-! ## quit (lines 81-85) -/

/-- The method `quit`, called on the facade with prototype `p`: `this.command('qa!', [])`. A
generated `command` is invoked with these two arguments; any other member under that name is a
function that makes no call on the session; without a member the call throws. -/
def quit (p : Proto) (this : Value) : Except Thrown CallResult :=
  match p.lookup Owner.facade "command" with
  | some (Member.method m) =>
    Except.ok
      { calls := (invoke m this [Value.str "qa!", Value.arr []]).calls
        returned := Value.undefined }
  | some _ => Except.ok { calls := [], returned := Value.undefined }
  | none => Except.error (Thrown.typeError "this.command is not a function")

/-! ## Vocabulary of the statements on decode -/

/-- Whether a value is a container: an array or a map. -/
def isContainer : Value → Bool
  | .arr _ => true
  | .obj _ => true
  | _ => false

mutual
/-- What is asked of the value `w` that stands, after the pass, where `v` stood before: a valid
UTF-8 byte sequence has become the text it encodes, a container has kept its shape and its
members are related in the same way, any other value that is not a handle is unchanged. Nothing
is asked for a byte sequence that is not valid UTF-8 or for a handle. -/
def Normalized : Value → Value → Prop
  | .buf b, w => ∀ s : String, b = utf8Bytes s → w = Value.str s
  | .handle _ _, _ => True
  | .arr xs, w => ∃ ys, w = Value.arr ys ∧ NormalizedList xs ys
  | .obj fs, w => ∃ gs, w = Value.obj gs ∧ NormalizedFields fs gs
  | v, w => w = v
/-- The same for the elements of an array: as many elements, related one by one. -/
def NormalizedList : List Value → List Value → Prop
  | [], ys => ys = []
  | x :: xs, ys => ∃ y rest, ys = y :: rest ∧ Normalized x y ∧ NormalizedList xs rest
/-- The same for the members of a map: the same keys in the same order, values related. -/
def NormalizedFields : List (String × Value) → List (String × Value) → Prop
  | [], gs => gs = []
  | (k, v) :: fs, gs => ∃ w rest, gs = (k, w) :: rest ∧ Normalized v w ∧ NormalizedFields fs rest
end

/-- The metadata entry of a function `nvim_delete`, whose method name is a reserved word. -/
def nvimDelete : FunctionSpec :=
  { name := "nvim_delete"
    parameters := [("String", "name")]
    return_type := "void"
    deferred := false
    can_fail := true }

/-- The metadata entry of a function `nvim_emit`, whose method name is `emit`. -/
def nvimEmit : FunctionSpec :=
  { name := "nvim_emit"
    parameters := [("String", "name")]
    return_type := "void"
    deferred := false
    can_fail := true }

/-- The metadata entry of `vim_command`. -/
def vimCommand : FunctionSpec :=
  { name := "vim_command"
    parameters := [("String", "str")]
    return_type := "void"
    deferred := false
    can_fail := true }

/-- The metadata entry of a function whose owner `Window` is not among the types of
`sampleInfo`. -/
def windowGetHeight : FunctionSpec :=
  { name := "window_get_height"
    parameters := [("Window", "window")]
    return_type := "Integer"
    deferred := false
    can_fail := true }

/-! ## Theorems -/

theorem run_append (E : Env) (s : State) (xs ys : List Input) :
    run E s (xs ++ ys) = run E (run E s xs) ys := by
  simp [run, List.foldl_append]

theorem run_cons (E : Env) (s : State) (x : Input) (xs : List Input) :
    run E s (x :: xs) = run E (step E s x) xs := rfl

theorem isSpecs_eq_false (m : Value) (h : m ≠ Value.str "specs") : isSpecs m = false := by
  cases m <;> simp_all [isSpecs]

theorem replay_toPending (p : Inbound) : p.toPending.replay = p.asEvent := by
  cases p <;> rfl

@[simp] theorem facadeEmit_cbCalls (s : State) (e : Emitted) :
    (facadeEmit s e).cbCalls = s.cbCalls := by
  unfold facadeEmit; split <;> rfl

@[simp] theorem facadeEmit_requestListeners (s : State) (e : Emitted) :
    (facadeEmit s e).requestListeners = s.requestListeners := by
  unfold facadeEmit; split <;> rfl

@[simp] theorem facadeEmit_notificationListeners (s : State) (e : Emitted) :
    (facadeEmit s e).notificationListeners = s.notificationListeners := by
  unfold facadeEmit; split <;> rfl

@[simp] theorem facadeEmit_pendingRPCs (s : State) (e : Emitted) :
    (facadeEmit s e).pendingRPCs = s.pendingRPCs := by
  unfold facadeEmit; split <;> rfl

@[simp] theorem facadeEmit_proto (s : State) (e : Emitted) :
    (facadeEmit s e).proto = s.proto := by
  unfold facadeEmit; split <;> rfl

@[simp] theorem facadeEmit_thrown (s : State) (e : Emitted) :
    (facadeEmit s e).thrown = s.thrown := by
  unfold facadeEmit; split <;> rfl

/-- With no member `emit` on `Nvim.prototype`, `nvim.emit` emits the event. -/
theorem facadeEmit_inherited (s : State) (e : Emitted) (h : s.inheritsEmit) :
    facadeEmit s e = { s with emitted := s.emitted ++ [e] } := by
  unfold State.inheritsEmit at h
  unfold facadeEmit
  rw [h]

/-- With a member `emit` on `Nvim.prototype`, `nvim.emit` emits nothing. -/
theorem facadeEmit_shadowed (s : State) (e : Emitted) (h : ¬ s.inheritsEmit) :
    (facadeEmit s e).emitted = s.emitted := by
  unfold State.inheritsEmit at h
  unfold facadeEmit
  split
  · contradiction
  · rfl

/-- The loop of lines 181-183 changes nothing but the record of the calls of `nvim.emit`. -/
theorem replay_fields (ps : List Pending) :
    ∀ s : State,
      (ps.foldl (fun t pending => facadeEmit t pending.replay) s).cbCalls = s.cbCalls ∧
      (ps.foldl (fun t pending => facadeEmit t pending.replay) s).requestListeners
        = s.requestListeners ∧
      (ps.foldl (fun t pending => facadeEmit t pending.replay) s).notificationListeners
        = s.notificationListeners ∧
      (ps.foldl (fun t pending => facadeEmit t pending.replay) s).pendingRPCs = s.pendingRPCs ∧
      (ps.foldl (fun t pending => facadeEmit t pending.replay) s).proto = s.proto ∧
      (ps.foldl (fun t pending => facadeEmit t pending.replay) s).thrown = s.thrown := by
  induction ps with
  | nil => intro s; simp
  | cons q qs ih =>
    intro s
    simp only [List.foldl_cons]
    obtain ⟨h1, h2, h3, h4, h5, h6⟩ := ih (facadeEmit s q.replay)
    simp [h1, h2, h3, h4, h5, h6]

/-- With no member `emit` on `Nvim.prototype`, the loop of lines 181-183 emits the queue in
order. -/
theorem replay_inherited (ps : List Pending) :
    ∀ s : State, s.inheritsEmit →
      ps.foldl (fun t pending => facadeEmit t pending.replay) s
        = { s with emitted := s.emitted ++ ps.map Pending.replay } := by
  induction ps with
  | nil => intro s _; simp
  | cons q qs ih =>
    intro s hs
    have h2 : (facadeEmit s q.replay).inheritsEmit := by
      unfold State.inheritsEmit
      rw [facadeEmit_proto]
      exact hs
    rw [List.foldl_cons, ih _ h2, facadeEmit_inherited s _ hs]
    simp

/-- While only the queueing listeners are registered, messages other than `specs` requests are
appended to `pendingRPCs` and nothing else changes. -/
theorem run_buffering (E : Env) (pre : List Inbound) :
    ∀ s : State, s.buffering → (∀ p ∈ pre, p.method ≠ Value.str "specs") →
      run E s (pre.map Inbound.toInput)
        = { s with pendingRPCs := s.pendingRPCs ++ pre.map Inbound.toPending } := by
  induction pre with
  | nil => intro s _ _; simp [run]
  | cons p ps ih =>
    intro s hs hp
    have hm : isSpecs p.method = false := isSpecs_eq_false _ (hp p (by simp))
    have hstep : step E s p.toInput
        = { s with pendingRPCs := s.pendingRPCs ++ [p.toPending] } := by
      obtain ⟨h1, h2⟩ := hs
      cases p with
      | request m a r =>
        simp only [Inbound.method] at hm
        simp [step, Inbound.toInput, Inbound.toPending, h1, onRequest, queueRequests, hm]
      | notification m a =>
        simp [step, Inbound.toInput, Inbound.toPending, h2, onNotification, queueNotifications, emitNotification]
    rw [List.map_cons, run_cons, hstep, ih]
    · simp
    · exact ⟨hs.1, hs.2⟩
    · exact fun q hq => hp q (by simp [hq])

/-- While only the direct listeners are registered, every message is emitted decoded, at once. -/
theorem run_direct (E : Env) (post : List Inbound) :
    ∀ s : State, s.direct → s.inheritsEmit →
      run E s (post.map Inbound.toInput)
        = { s with emitted := s.emitted ++ post.map (fun p => (p.decoded E).asEvent) } := by
  induction post with
  | nil => intro s _ _; simp [run]
  | cons p ps ih =>
    intro s hs he
    have hstep : step E s p.toInput
        = { s with emitted := s.emitted ++ [(p.decoded E).asEvent] } := by
      obtain ⟨h1, h2⟩ := hs
      cases p with
      | request m a r =>
        simp [step, Inbound.toInput, Inbound.decoded, Inbound.asEvent, h1, onRequest, emitRequest,
          facadeEmit_inherited s _ he]
      | notification m a =>
        simp [step, Inbound.toInput, Inbound.decoded, Inbound.asEvent, h2, onNotification,
          emitNotification, facadeEmit_inherited s _ he]
    rw [List.map_cons, run_cons, hstep, ih]
    · simp
    · exact ⟨hs.1, hs.2⟩
    · exact he

/-- The metadata callback, reached while only the queueing listeners are registered and with a
generation that does not throw, installs the direct listeners and re-emits the queue in order. -/
theorem step_apiInfo_buffering (E : Env) (s : State) (res : ApiInfo) (hs : s.buffering)
    (hres : bootstrapCompletes E res) (hemit : keepsEmit E res s.proto) :
    (step E s (Input.apiInfo none res)).direct ∧
      (step E s (Input.apiInfo none res)).inheritsEmit ∧
      (step E s (Input.apiInfo none res)).emitted
        = s.emitted ++ s.pendingRPCs.map Pending.replay := by
  obtain ⟨h1, h2⟩ := hs
  unfold bootstrapCompletes at hres
  have hi : State.inheritsEmit
      { s with
        proto := addExtraNvimMethods
          (applyAttachments
            ((registerTypes E (res.metadata.types.map Prod.fst)).registered.foldl registerType
              s.proto)
            (generateWrappers E (registerTypes E (res.metadata.types.map Prod.fst)).registered
              res.metadata.functions).attached)
        extTypes := s.extTypes ++ res.metadata.types
        requestListeners :=
          removeListener Listener.queue s.requestListeners ++ [Listener.direct]
        notificationListeners :=
          removeListener Listener.queue s.notificationListeners ++ [Listener.direct] } := hemit
  simp only [step, onApiInfo, hres]
  rw [replay_inherited _ _ hi]
  exact ⟨by simp [State.direct, h1, h2, removeListener], hemit, rfl⟩

theorem cbCalls_onRequest (E : Env) (m a : Value) (r : Nat) (ls : List Listener) :
    ∀ s : State, (ls.foldl (fun t l => onRequest E t l m a r) s).cbCalls = s.cbCalls := by
  induction ls with
  | nil => intro s; rfl
  | cons l ls ih =>
    intro s
    rw [List.foldl_cons, ih]
    cases l with
    | queue => simp only [onRequest, queueRequests]; split <;> simp
    | direct => simp [onRequest, emitRequest]

theorem cbCalls_onNotification (E : Env) (m a : Value) (ls : List Listener) :
    ∀ s : State, (ls.foldl (fun t l => onNotification E t l m a) s).cbCalls = s.cbCalls := by
  induction ls with
  | nil => intro s; rfl
  | cons l ls ih =>
    intro s
    rw [List.foldl_cons, ih]
    cases l <;> simp [onNotification, queueNotifications, emitNotification]

theorem cbCalls_step (E : Env) (s : State) (i : Input) :
    (step E s i).cbCalls = s.cbCalls ++ i.failure.toList := by
  cases i with
  | request m a r => simp [step, cbCalls_onRequest, Input.failure]
  | notification m a => simp [step, cbCalls_onNotification, Input.failure]
  | detach => simp [step, onDetach, Input.failure]
  | apiInfo err res =>
    cases err with
    | some e => simp [step, onApiInfo, Input.failure]
    | none =>
      simp only [step, onApiInfo, Input.failure, Option.toList, List.append_nil]
      split
      · rfl
      · split
        · rfl
        · exact (replay_fields _ _).1

theorem cbCalls_run (E : Env) (inputs : List Input) :
    ∀ s : State, (run E s inputs).cbCalls = s.cbCalls ++ inputs.filterMap Input.failure := by
  induction inputs with
  | nil => intro s; simp [run]
  | cons i is ih =>
    intro s
    rw [run_cons, ih, cbCalls_step]
    cases h : i.failure <;> simp [List.filterMap_cons, h]

/-- C1, as stated, fails: a notification is queued, then a metadata response without error
arrives whose document holds `nvim_delete` (or `window_get_height` without a type `Window`):
processing the response throws, and the queued notification is not emitted, nor is it when
more traffic arrives. With a document that holds `nvim_emit` the processing runs to its end,
but `nvim.emit` is then the generated method, and neither the queued notification nor the one
that arrives afterwards is emitted. -/
theorem queued_item_lost_when_processing_throws :
    (run sampleEnv attach
        [Input.notification (Value.str "m") (Value.arr []),
          Input.apiInfo none
            { channel_id := Value.num 1, metadata := { functions := [nvimDelete], types := [] } },
          Input.notification (Value.str "n") (Value.arr [])]).emitted = [] ∧
    (run sampleEnv attach
        [Input.notification (Value.str "m") (Value.arr []),
          Input.apiInfo none
            { channel_id := Value.num 1, metadata := { functions := [nvimDelete], types := [] } },
          Input.notification (Value.str "n") (Value.arr [])]).thrown
      = [Thrown.syntaxError "Unexpected token"] ∧
    (run sampleEnv attach
        [Input.notification (Value.str "m") (Value.arr []),
          Input.apiInfo none
            { channel_id := Value.num 1
              metadata := { functions := [windowGetHeight], types := [] } },
          Input.notification (Value.str "n") (Value.arr [])]).emitted = [] ∧
    bootstrapCompletes sampleEnv
      { channel_id := Value.num 1, metadata := { functions := [nvimEmit], types := [] } } ∧
    (run sampleEnv attach
        [Input.notification (Value.str "m") (Value.arr []),
          Input.apiInfo none
            { channel_id := Value.num 1, metadata := { functions := [nvimEmit], types := [] } },
          Input.notification (Value.str "n") (Value.arr [])]).emitted = [] ∧
    (run sampleEnv attach
        [Input.notification (Value.str "m") (Value.arr []),
          Input.apiInfo none
            { channel_id := Value.num 1, metadata := { functions := [nvimEmit], types := [] } },
          Input.notification (Value.str "n") (Value.arr [])]).shadowed
      = [Emitted.notification (Value.str "m") (Value.arr []),
          Emitted.notification (Value.str "n") (Value.arr [])] :=
  ⟨rfl, rfl, rfl, by unfold bootstrapCompletes; decide, rfl, rfl⟩

/-- C1, amended: when the processing of the metadata response runs to its end and leaves the
prototype of the facade without a member named `emit`, the messages that arrived before it
(none named `specs`) are each emitted once, as events of their own kind, in arrival order, when
the response has been processed, and before every event for a message that arrives afterwards.
`proto` holds the members that `Nvim.prototype` and the prototypes of the types have when
`attach` is called. -/
theorem replay_in_arrival_order (E : Env) (proto : Proto) (pre post : List Inbound)
    (res : ApiInfo)
    (hpre : ∀ p ∈ pre, p.method ≠ Value.str "specs")
    (hres : bootstrapCompletes E res) (hemit : keepsEmit E res proto) :
    (run E { attach with proto := proto }
        (pre.map Inbound.toInput ++ Input.apiInfo none res :: post.map Inbound.toInput)).emitted
      = pre.map Inbound.asEvent ++ post.map (fun p => (p.decoded E).asEvent) := by
  have hb : State.buffering { attach with proto := proto } := ⟨rfl, rfl⟩
  rw [run_append, run_cons, run_buffering E pre _ hb hpre]
  have hq : State.buffering
      { attach with
        proto := proto
        pendingRPCs := attach.pendingRPCs ++ pre.map Inbound.toPending } := ⟨rfl, rfl⟩
  obtain ⟨hd, hi, he⟩ := step_apiInfo_buffering E _ res hq hres hemit
  rw [run_direct E post _ hd hi]
  simp only [he]
  simp [attach, List.map_map, Function.comp_def, replay_toPending]

/-- C1, amended, at a notification and a request queued before the response and a request after
it. -/
theorem replay_in_arrival_order_witness :
    (∀ p ∈ [Inbound.notification (Value.str "redraw") (Value.arr [Value.buf [97]]),
          Inbound.request (Value.str "poll") (Value.arr []) 7],
        p.method ≠ Value.str "specs") ∧
    bootstrapCompletes sampleEnv sampleInfo ∧
    keepsEmit sampleEnv sampleInfo [] ∧
    (run sampleEnv { attach with proto := [] }
        ([Inbound.notification (Value.str "redraw") (Value.arr [Value.buf [97]]),
            Inbound.request (Value.str "poll") (Value.arr []) 7].map Inbound.toInput
          ++ Input.apiInfo none sampleInfo
            :: [Inbound.request (Value.str "specs") (Value.arr []) 8].map Inbound.toInput)).emitted
      = [Inbound.notification (Value.str "redraw") (Value.arr [Value.buf [97]]),
            Inbound.request (Value.str "poll") (Value.arr []) 7].map Inbound.asEvent
          ++ [Inbound.request (Value.str "specs") (Value.arr []) 8].map
              (fun p => (p.decoded sampleEnv).asEvent) :=
  have h1 : ∀ p ∈ [Inbound.notification (Value.str "redraw") (Value.arr [Value.buf [97]]),
        Inbound.request (Value.str "poll") (Value.arr []) 7],
      p.method ≠ Value.str "specs" := by
    intro p hp
    simp only [List.mem_cons, List.mem_singleton, List.not_mem_nil, or_false] at hp
    rcases hp with rfl | rfl <;> simp [Inbound.method]
  have h2 : bootstrapCompletes sampleEnv sampleInfo := by
    unfold bootstrapCompletes
    decide
  have h3 : keepsEmit sampleEnv sampleInfo [] := by
    unfold keepsEmit
    decide
  ⟨h1, h2, h3, replay_in_arrival_order sampleEnv [] _ _ sampleInfo h1 h2 h3⟩

/-- C2: a notification whose arguments hold a `Buffer`, queued before the metadata response, is
re-emitted with the `Buffer` still in place; the same notification arriving after the response
is emitted with the `Buffer` replaced by its text. -/
theorem replayed_event_is_not_decoded :
    (run sampleEnv attach
        [Input.notification (Value.str "m") (Value.arr [Value.buf [97]]),
          Input.apiInfo none sampleInfo]).emitted
      = [Emitted.notification (Value.str "m") (Value.arr [Value.buf [97]])] ∧
    (run sampleEnv attach
        [Input.apiInfo none sampleInfo,
          Input.notification (Value.str "m") (Value.arr [Value.buf [97]])]).emitted
      = [Emitted.notification (Value.str "m") (Value.arr [Value.str "a"])] :=
  ⟨rfl, rfl⟩

/-- C3: with a notification queued, `detach`, then the metadata response, then another
notification, the facade emits two notification events after `disconnect`. -/
theorem events_emitted_after_detach :
    (run sampleEnv attach
        [Input.notification (Value.str "m") (Value.arr []),
          Input.detach,
          Input.apiInfo none sampleInfo,
          Input.notification (Value.str "n") (Value.arr [])]).emitted
      = [Emitted.disconnect,
          Emitted.notification (Value.str "m") (Value.arr []),
          Emitted.notification (Value.str "n") (Value.arr [])] :=
  rfl

/-- C4, as stated, fails: when the metadata call fails the completion callback has been called
twice, first with the facade and then with the error. -/
theorem callback_called_twice_on_failure :
    (run sampleEnv attach
        [Input.apiInfo (some [Value.num 1, Value.str "boom"]) sampleInfo]).cbCalls
      = [CbCall.facade, CbCall.error [Value.num 1, Value.str "boom"]] ∧
    (run sampleEnv attach
        [Input.apiInfo (some [Value.num 1, Value.str "boom"]) sampleInfo]).cbCalls.length ≠ 1 :=
  ⟨rfl, by decide⟩

/-- C4, amended: the completion callback is called with the facade once, when `attach` runs, and
after that once with `e` for every metadata response that carries an error `e`, and never
otherwise. -/
theorem completion_callback_calls (E : Env) (inputs : List Input) :
    (run E attach inputs).cbCalls = CbCall.facade :: inputs.filterMap Input.failure := by
  rw [cbCalls_run]
  rfl

/-- C5, as stated, fails: a metadata response whose document holds `nvim_emit` and then
`window_get_height` without a type `Window` throws after `Nvim.prototype.emit` has been
assigned; the queueing listeners remain, and a request named `specs` that arrives then is
neither emitted nor queued: `nvim.emit` is the generated method. -/
theorem specs_request_lost_when_emit_is_shadowed :
    (run sampleEnv attach
        [Input.apiInfo none
          { channel_id := Value.num 1
            metadata := { functions := [nvimEmit, windowGetHeight], types := [] } }]).buffering ∧
    (run sampleEnv attach
        [Input.apiInfo none
          { channel_id := Value.num 1
            metadata := { functions := [nvimEmit, windowGetHeight], types := [] } },
          Input.request (Value.str "specs") (Value.arr []) 3]).emitted = [] ∧
    (run sampleEnv attach
        [Input.apiInfo none
          { channel_id := Value.num 1
            metadata := { functions := [nvimEmit, windowGetHeight], types := [] } },
          Input.request (Value.str "specs") (Value.arr []) 3]).pendingRPCs = [] ∧
    (run sampleEnv attach
        [Input.apiInfo none
          { channel_id := Value.num 1
            metadata := { functions := [nvimEmit, windowGetHeight], types := [] } },
          Input.request (Value.str "specs") (Value.arr []) 3]).shadowed
      = [Emitted.request (Value.str "specs") (Value.arr []) 3] :=
  ⟨⟨rfl, rfl⟩, rfl, rfl, rfl⟩

/-- C5, amended: while Buffering, a request named `specs` is never queued, and it is emitted at
once, decoded and with its responder, as long as the prototype of the facade has no member
named `emit`; any other request, and any notification whatever its name, is appended to
`pendingRPCs` and emits nothing. -/
theorem buffering_bypass (E : Env) (s : State) (m n a : Value) (r : Nat)
    (hs : s.buffering) (hm : m ≠ Value.str "specs") :
    (s.inheritsEmit →
      step E s (Input.request (Value.str "specs") a r)
        = { s with
            emitted := s.emitted
              ++ [Emitted.request (decode E (Value.str "specs")) (decode E a) r] }) ∧
    (step E s (Input.request (Value.str "specs") a r)).pendingRPCs = s.pendingRPCs ∧
    step E s (Input.request m a r)
        = { s with pendingRPCs := s.pendingRPCs ++ [Pending.request m a r] } ∧
    step E s (Input.notification n a)
        = { s with pendingRPCs := s.pendingRPCs ++ [Pending.notification n a] } := by
  obtain ⟨h1, h2⟩ := hs
  have h := isSpecs_eq_false m hm
  refine ⟨?_, ?_, ?_, ?_⟩
  · intro he
    simp [step, h1, onRequest, queueRequests, isSpecs, facadeEmit_inherited s _ he]
  · simp [step, h1, onRequest, queueRequests, isSpecs]
  · simp [step, h1, onRequest, queueRequests, h]
  · simp [step, h2, onNotification, queueNotifications, emitNotification]

/-- C5, amended, in the Buffering state that already holds one queued notification: a request
named `specs` is emitted, a request named `poll` and a notification named `specs` are queued. -/
theorem buffering_bypass_witness :
    (run sampleEnv attach [Input.notification (Value.str "redraw") (Value.arr [])]).buffering ∧
    Value.str "poll" ≠ Value.str "specs" ∧
    (run sampleEnv attach [Input.notification (Value.str "redraw") (Value.arr [])]).inheritsEmit ∧
    (step sampleEnv (run sampleEnv attach [Input.notification (Value.str "redraw") (Value.arr [])])
        (Input.request (Value.str "specs") (Value.arr [Value.buf [97]]) 3)).emitted
      = [Emitted.request (Value.str "specs") (Value.arr [Value.str "a"]) 3] ∧
    (step sampleEnv (run sampleEnv attach [Input.notification (Value.str "redraw") (Value.arr [])])
        (Input.request (Value.str "specs") (Value.arr [Value.buf [97]]) 3)).pendingRPCs
      = [Pending.notification (Value.str "redraw") (Value.arr [])] ∧
    (step sampleEnv (run sampleEnv attach [Input.notification (Value.str "redraw") (Value.arr [])])
        (Input.request (Value.str "poll") (Value.arr [Value.buf [97]]) 3)).pendingRPCs
      = [Pending.notification (Value.str "redraw") (Value.arr []),
          Pending.request (Value.str "poll") (Value.arr [Value.buf [97]]) 3] ∧
    step sampleEnv (run sampleEnv attach [Input.notification (Value.str "redraw") (Value.arr [])])
        (Input.notification (Value.str "specs") (Value.arr [Value.buf [97]]))
      = { run sampleEnv attach [Input.notification (Value.str "redraw") (Value.arr [])] with
          pendingRPCs :=
            [Pending.notification (Value.str "redraw") (Value.arr []),
              Pending.notification (Value.str "specs") (Value.arr [Value.buf [97]])] } :=
  have hs : (run sampleEnv attach
      [Input.notification (Value.str "redraw") (Value.arr [])]).buffering := ⟨rfl, rfl⟩
  have hm : Value.str "poll" ≠ Value.str "specs" := by simp
  have he : (run sampleEnv attach
      [Input.notification (Value.str "redraw") (Value.arr [])]).inheritsEmit := rfl
  have h := buffering_bypass sampleEnv _ (Value.str "poll") (Value.str "specs")
    (Value.arr [Value.buf [97]]) 3 hs hm
  ⟨hs, hm, he, by rw [h.1 he]; rfl, by rw [h.2.1]; rfl, by rw [h.2.2.1]; rfl,
    by rw [h.2.2.2]; rfl⟩

theorem getD_append_left (l r : List Value) (i : Nat) (h : i < l.length) :
    (l ++ r).getD i Value.undefined = l[i] := by
  simp [List.getD_eq_getElem?_getD, List.getElem?_append_left h, List.getElem?_eq_getElem h]

theorem bindParams_append (l r : List Value) : bindParams l.length (l ++ r) = l := by
  apply List.ext_getElem
  · simp [bindParams]
  · intro i h1 h2
    have h := getD_append_left l r i h2
    simp only [List.getD_eq_getElem?_getD] at h
    simp [bindParams, h]

theorem bindParams_self (l : List Value) : bindParams l.length l = l := by
  simpa using bindParams_append l []

theorem getD_length (l : List Value) : l.getD l.length Value.undefined = Value.undefined := by
  simp [List.getD_eq_getElem?_getD]

theorem getD_length_append (l : List Value) (c : Value) :
    (l ++ [c]).getD l.length Value.undefined = c := by
  simp [List.getD_eq_getElem?_getD]

theorem join_split (s : String) : join (split s) = s := by
  simp [join, split, List.map_map, Function.comp_def, List.intercalate_splitOn]

theorem makeWrapper_wireName (E : Env) (types : List String) (func : FunctionSpec) :
    (makeWrapper E types func).method.wireName = func.name := rfl

theorem makeWrapper_passThis (E : Env) (types : List String) (func : FunctionSpec) :
    (makeWrapper E types func).method.passThis = !isGlobal (typeNameOf E func.name) := rfl

theorem makeWrapper_methodName (E : Env) (types : List String) (func : FunctionSpec) :
    (makeWrapper E types func).methodName
      = E.camelCase (join ((split func.name).drop
          (if typeNameOf E func.name != "Ui" then 1 else 0))) := rfl

theorem makeWrapper_owner (E : Env) (types : List String) (func : FunctionSpec) :
    (makeWrapper E types func).owner
      = if isGlobal (typeNameOf E func.name) then some Owner.facade
        else if typeNameOf E func.name ∈ types then some (Owner.ext (typeNameOf E func.name))
        else none := rfl

theorem makeWrapper_callParams (E : Env) (types : List String) (func : FunctionSpec) :
    (makeWrapper E types func).method.callParams
      = if isGlobal (typeNameOf E func.name) then func.parameters.map Prod.snd
        else (func.parameters.map Prod.snd).drop 1 := rfl

theorem makeWrapper_params (E : Env) (types : List String) (func : FunctionSpec) :
    (makeWrapper E types func).method.params
      = (makeWrapper E types func).method.callParams ++ ["cb"] := rfl

theorem makeWrapper_parameters (E : Env) (types : List String) (func : FunctionSpec) :
    (makeWrapper E types func).method.metadata.parameters
      = (makeWrapper E types func).method.callParams ++ ["cb"] := rfl

theorem generateWrappers_cons_ok (E : Env) (types : List String) (f : FunctionSpec)
    (fs : List FunctionSpec) (o : Owner) (hp : E.parses (makeWrapper E types f).text = true)
    (ho : (makeWrapper E types f).owner = some o) :
    generateWrappers E types (f :: fs)
      = { attached :=
            { owner := o
              methodName := (makeWrapper E types f).methodName
              method := (makeWrapper E types f).method } :: (generateWrappers E types fs).attached
          error := (generateWrappers E types fs).error } := by
  simp [generateWrappers, hp, ho]

theorem generateWrappers_cons_refused (E : Env) (types : List String) (f : FunctionSpec)
    (fs : List FunctionSpec) (hp : E.parses (makeWrapper E types f).text = false) :
    generateWrappers E types (f :: fs)
      = { attached := [], error := some (Thrown.syntaxError "Unexpected token") } := by
  simp [generateWrappers, hp]

theorem generateWrappers_cons_type (E : Env) (types : List String) (f : FunctionSpec)
    (fs : List FunctionSpec) (hp : E.parses (makeWrapper E types f).text = true)
    (ho : (makeWrapper E types f).owner = none) :
    generateWrappers E types (f :: fs)
      = { attached := []
          error := some (Thrown.typeError "Cannot read property prototype of undefined") } := by
  simp [generateWrappers, hp, ho]

/-- A loop that does not throw on `pre` continues with the functions that follow. -/
theorem generateWrappers_append (E : Env) (types : List String) (rest : List FunctionSpec) :
    ∀ pre : List FunctionSpec, (generateWrappers E types pre).error = none →
      (generateWrappers E types (pre ++ rest)).attached
          = (generateWrappers E types pre).attached ++ (generateWrappers E types rest).attached ∧
      (generateWrappers E types (pre ++ rest)).error = (generateWrappers E types rest).error ∧
      (generateWrappers E types pre).attached.length = pre.length := by
  intro pre
  induction pre with
  | nil => intro _; simp [generateWrappers]
  | cons f fs ih =>
    intro h
    cases hp : E.parses (makeWrapper E types f).text with
    | false => rw [generateWrappers_cons_refused E types f fs hp] at h; cases h
    | true =>
      cases ho : (makeWrapper E types f).owner with
      | none => rw [generateWrappers_cons_type E types f fs hp ho] at h; cases h
      | some o =>
        rw [generateWrappers_cons_ok E types f fs o hp ho] at h
        obtain ⟨h1, h2, h3⟩ := ih h
        rw [List.cons_append, generateWrappers_cons_ok E types f _ o hp ho,
          generateWrappers_cons_ok E types f fs o hp ho]
        simp [h1, h2, h3]

/-- The iteration for `func` is reached when the loop does not throw before it; when its text is
accepted and its owner resolves, it makes the assignment that `makeWrapper` describes. -/
theorem generateWrappers_reaches (E : Env) (types : List String) (pre post : List FunctionSpec)
    (func : FunctionSpec) (o : Owner) (hpre : (generateWrappers E types pre).error = none)
    (hp : E.parses (makeWrapper E types func).text = true)
    (ho : (makeWrapper E types func).owner = some o) :
    (generateWrappers E types (pre ++ func :: post)).attached
      = (generateWrappers E types pre).attached
        ++ { owner := o
             methodName := (makeWrapper E types func).methodName
             method := (makeWrapper E types func).method }
          :: (generateWrappers E types post).attached := by
  obtain ⟨h1, _, _⟩ := generateWrappers_append E types (func :: post) pre hpre
  rw [h1, generateWrappers_cons_ok E types func post o hp ho]

theorem lookup_assign (p : Proto) (o : Owner) (k : String) (m : Member) :
    Proto.lookup (Proto.assign p o k m) o k = some m := by
  simp [Proto.lookup, Proto.assign]

theorem lookup_assign_ne (p : Proto) (o o2 : Owner) (k k2 : String) (m : Member)
    (h : ¬ (o = o2 ∧ k = k2)) :
    Proto.lookup (Proto.assign p o k m) o2 k2 = Proto.lookup p o2 k2 := by
  have hne : ((o, k) == (o2, k2)) = false := by
    simp only [beq_eq_false_iff_ne, ne_eq, Prod.mk.injEq]
    exact h
  simp [Proto.lookup, Proto.assign, List.find?_cons, hne]

theorem applyAttachments_append (p : Proto) (as bs : List Attachment) :
    applyAttachments p (as ++ bs) = applyAttachments (applyAttachments p as) bs := by
  simp [applyAttachments, List.foldl_append]

/-- Assignments under other owners or names leave a member of the prototypes as it is. -/
theorem lookup_applyAttachments_ne (o : Owner) (k : String) (as : List Attachment) :
    ∀ p : Proto, (∀ a ∈ as, ¬ (a.owner = o ∧ a.methodName = k)) →
      Proto.lookup (applyAttachments p as) o k = Proto.lookup p o k := by
  induction as with
  | nil => intro p _; rfl
  | cons a as ih =>
    intro p h
    have h1 : applyAttachments p (a :: as)
        = applyAttachments (Proto.assign p a.owner a.methodName (Member.method a.method)) as :=
      rfl
    rw [h1, ih _ (fun b hb => h b (List.mem_cons_of_mem _ hb)),
      lookup_assign_ne _ _ _ _ _ _ (h a (List.mem_cons_self _ _))]

/-- What the loop does with a function whose text is accepted and whose owner resolves to `o`,
when it does not throw before: in the prototypes as they are after its iteration the method
stands under the owner and the method name, and it still stands there at the end of the loop
unless a later function is assigned to the same owner under the same name. -/
theorem generateWrappers_attaches (E : Env) (types : List String) (func : FunctionSpec)
    (o : Owner) (hp : E.parses (makeWrapper E types func).text = true)
    (ho : (makeWrapper E types func).owner = some o)
    (pre : List FunctionSpec) (hpre : (generateWrappers E types pre).error = none)
    (p : Proto) :
    Proto.lookup (applyAttachments p (generateWrappers E types (pre ++ [func])).attached)
        o (makeWrapper E types func).methodName
      = some (Member.method (makeWrapper E types func).method) ∧
    ∀ post : List FunctionSpec,
      (∀ a ∈ (generateWrappers E types post).attached,
        ¬ (a.owner = o ∧ a.methodName = (makeWrapper E types func).methodName)) →
      Proto.lookup (applyAttachments p (generateWrappers E types (pre ++ func :: post)).attached)
          o (makeWrapper E types func).methodName
        = some (Member.method (makeWrapper E types func).method) := by
  have key : ∀ post : List FunctionSpec,
      (∀ a ∈ (generateWrappers E types post).attached,
        ¬ (a.owner = o ∧ a.methodName = (makeWrapper E types func).methodName)) →
      Proto.lookup (applyAttachments p (generateWrappers E types (pre ++ func :: post)).attached)
          o (makeWrapper E types func).methodName
        = some (Member.method (makeWrapper E types func).method) := by
    intro post hpost
    rw [generateWrappers_reaches E types pre post func o hpre hp ho, applyAttachments_append]
    have h1 : ∀ q : Proto, ∀ a : Attachment, ∀ as : List Attachment,
        applyAttachments q (a :: as)
          = applyAttachments (Proto.assign q a.owner a.methodName (Member.method a.method)) as :=
      fun _ _ _ => rfl
    rw [h1, lookup_applyAttachments_ne o _ _ _ hpost, lookup_assign]
  exact ⟨key [] (by simp [generateWrappers]), key⟩

/-- C6, as stated, fails: `getLine(cb)`, the empty argument list followed by a callback, makes
a `notify` that carries the callback as an argument, and no `request`; `getLine()` makes a
`notify` whose arguments are `this` and `undefined`, and not `this` alone. -/
theorem callback_bound_to_parameter :
    invoke (makeWrapper sampleEnv ["Buffer"] bufferGetLine).method
        (Value.handle "Buffer" (Value.buf [1])) ([] ++ [Value.func 9])
      = { calls := [TransportCall.notify "buffer_get_line"
                      [Value.handle "Buffer" (Value.buf [1]), Value.func 9]]
          returned := Value.undefined } ∧
    invoke (makeWrapper sampleEnv ["Buffer"] bufferGetLine).method
        (Value.handle "Buffer" (Value.buf [1])) []
      = { calls := [TransportCall.notify "buffer_get_line"
                      [Value.handle "Buffer" (Value.buf [1]), Value.undefined]]
          returned := Value.undefined } :=
  ⟨rfl, rfl⟩

/-- C6, amended: a generated method called with one argument per exposed parameter and no
callback makes one `notify` with the full name and returns `undefined`; called with a callback
after them it makes one `request`. The call arguments are the passed ones for a method of the
facade and `this` followed by the passed ones otherwise. -/
theorem generated_method_dual_mode (E : Env) (types : List String) (func : FunctionSpec)
    (this cb : Value) (args : List Value)
    (hargs : args.length = (makeWrapper E types func).method.callParams.length)
    (hcb : truthy cb = true) :
    invoke (makeWrapper E types func).method this args
        = { calls := [TransportCall.notify func.name
                        (if isGlobal (typeNameOf E func.name) then args else this :: args)]
            returned := Value.undefined } ∧
    invoke (makeWrapper E types func).method this (args ++ [cb])
        = { calls := [TransportCall.request func.name
                        (if isGlobal (typeNameOf E func.name) then args else this :: args) cb]
            returned := Value.undefined } := by
  constructor
  · unfold invoke
    rw [← hargs, getD_length, bindParams_self, makeWrapper_wireName, makeWrapper_passThis]
    cases isGlobal (typeNameOf E func.name) <;> simp [truthy]
  · unfold invoke
    rw [← hargs, getD_length_append, bindParams_append, makeWrapper_wireName,
      makeWrapper_passThis]
    cases isGlobal (typeNameOf E func.name) <;> simp [hcb]

/-- C6, amended, at `getLine(3)` and `getLine(3, cb)` on a Buffer handle. -/
theorem generated_method_dual_mode_witness :
    [Value.num 3].length = (makeWrapper sampleEnv ["Buffer"] bufferGetLine).method.callParams.length ∧
    truthy (Value.func 9) = true ∧
    invoke (makeWrapper sampleEnv ["Buffer"] bufferGetLine).method
        (Value.handle "Buffer" (Value.buf [1])) [Value.num 3]
      = { calls := [TransportCall.notify "buffer_get_line"
                      [Value.handle "Buffer" (Value.buf [1]), Value.num 3]]
          returned := Value.undefined } ∧
    invoke (makeWrapper sampleEnv ["Buffer"] bufferGetLine).method
        (Value.handle "Buffer" (Value.buf [1])) [Value.num 3, Value.func 9]
      = { calls := [TransportCall.request "buffer_get_line"
                      [Value.handle "Buffer" (Value.buf [1]), Value.num 3] (Value.func 9)]
          returned := Value.undefined } :=
  have h1 : [Value.num 3].length
      = (makeWrapper sampleEnv ["Buffer"] bufferGetLine).method.callParams.length := by decide
  have h2 : truthy (Value.func 9) = true := rfl
  have h := generated_method_dual_mode sampleEnv ["Buffer"] bufferGetLine
    (Value.handle "Buffer" (Value.buf [1])) (Value.func 9) [Value.num 3] h1 h2
  ⟨h1, h2, h.1, h.2⟩

/-- C7: when a generated method was called with a function `fn` in the callback position, the
transport completing the request runs `fn` once and nothing is thrown: with `new Error(err[1])`
for an error payload `err`, with `(null, decode(res))` otherwise. -/
theorem reply_reaches_callback_once (E : Env) (types : List String) (func : FunctionSpec)
    (this : Value) (actuals : List Value) (fn : Nat) (payload : List Value) (res : Value)
    (hcb : actuals.getD (makeWrapper E types func).method.callParams.length Value.undefined
      = Value.func fn) :
    (invoke (makeWrapper E types func).method this actuals).calls.map
        (fun c => c.complete E (some payload) res)
      = [some (Outcome.calledWithError fn { message := payload.getD 1 Value.undefined })] ∧
    (invoke (makeWrapper E types func).method this actuals).calls.map
        (fun c => c.complete E none res)
      = [some (Outcome.calledWithResult fn (decode E res))] ∧
    (invoke (makeWrapper E types func).method this actuals).calls.map
        (fun c => c.complete E (some [Value.num 1, Value.str "boom"]) res)
      = [some (Outcome.calledWithError fn { message := Value.str "boom" })] := by
  simp only [invoke, hcb, truthy]
  simp [TransportCall.complete, onReply]

/-- C7, at `command("qa!", cb)` on the facade. -/
theorem reply_reaches_callback_once_witness :
    [Value.str "qa!", Value.func 4].getD
        (makeWrapper sampleEnv [] nvimCommand).method.callParams.length Value.undefined
      = Value.func 4 ∧
    (invoke (makeWrapper sampleEnv [] nvimCommand).method Value.null
          [Value.str "qa!", Value.func 4]).calls.map
        (fun c => c.complete sampleEnv none (Value.arr [Value.buf [97]]))
      = [some (Outcome.calledWithResult 4 (Value.arr [Value.str "a"]))] :=
  have h1 : [Value.str "qa!", Value.func 4].getD
      (makeWrapper sampleEnv [] nvimCommand).method.callParams.length Value.undefined
        = Value.func 4 := rfl
  ⟨h1, (reply_reaches_callback_once sampleEnv [] nvimCommand Value.null
    [Value.str "qa!", Value.func 4] 4 [] (Value.arr [Value.buf [97]]) h1).2.1⟩

theorem capitalize_ascii (E : Env) (s : String) (h : isAscii s = true) :
    capitalize E s = capitalizeAscii s := by
  simp [capitalize, h]

/-- C8, as stated, fails: with a type named `Ui` registered, the method generated for
`ui_try_resize` goes to the facade, under the name `uiTryResize` and with both parameters, and
not to the constructor `Ui` under the name `tryResize` without the first parameter; for
`buffer_delete` the text is refused with a `SyntaxError` and nothing is attached to `Buffer`;
after `window_get_height`, whose owner is unknown, `buffer_get_line` is not reached and
nothing is attached to `Buffer`. -/
theorem alias_named_type_gets_no_method :
    typeNameOf sampleEnv uiTryResize.name ∈ ["Ui"] ∧
    (makeWrapper sampleEnv ["Ui"] uiTryResize).owner = some Owner.facade ∧
    (makeWrapper sampleEnv ["Ui"] uiTryResize).owner ≠ some (Owner.ext "Ui") ∧
    (makeWrapper sampleEnv ["Ui"] uiTryResize).methodName = "uiTryResize" ∧
    sampleEnv.camelCase (join ((split uiTryResize.name).drop 1)) = "tryResize" ∧
    (makeWrapper sampleEnv ["Ui"] uiTryResize).method.params = ["width", "height", "cb"] ∧
    (generateWrappers sampleEnv ["Ui"] [uiTryResize]).attached.map (fun a => a.owner)
      = [Owner.facade] ∧
    typeNameOf sampleEnv "buffer_delete" ∈ ["Buffer"] ∧
    generateWrappers sampleEnv ["Buffer"] [{ bufferGetLine with name := "buffer_delete" }]
      = { attached := [], error := some (Thrown.syntaxError "Unexpected token") } ∧
    Proto.lookup
        (applyAttachments []
          (generateWrappers sampleEnv ["Buffer"]
            [{ bufferGetLine with name := "buffer_delete" }]).attached)
        (Owner.ext "Buffer") "delete" = none ∧
    (generateWrappers sampleEnv ["Buffer"] [windowGetHeight, bufferGetLine]).attached = [] ∧
    Proto.lookup
        (applyAttachments []
          (generateWrappers sampleEnv ["Buffer"] [windowGetHeight, bufferGetLine]).attached)
        (Owner.ext "Buffer") "getLine" = none := by
  decide

/-- C8, amended: when the capitalised first segment of the name is a key of `types` and is not
one of `Nvim`, `Vim`, `Ui`, the text of the method is accepted by `new Function`, and the loop
does not throw on the functions before it, then after its iteration the prototype of that type
holds, under the camel-cased remaining segments, the generated method, whose parameters are the
parameter names without the first, then `cb`; the method is still there at the end of the loop
unless a later function is assigned to the same type under the same name. -/
theorem ext_method_naming (E : Env) (types : List String) (func : FunctionSpec)
    (pre : List FunctionSpec) (p : Proto)
    (hreg : typeNameOf E func.name ∈ types) (hext : isGlobal (typeNameOf E func.name) = false)
    (hparse : E.parses (makeWrapper E types func).text = true)
    (hpre : (generateWrappers E types pre).error = none) :
    Proto.lookup (applyAttachments p (generateWrappers E types (pre ++ [func])).attached)
        (Owner.ext (typeNameOf E func.name)) (E.camelCase (join ((split func.name).drop 1)))
      = some (Member.method (makeWrapper E types func).method) ∧
    (makeWrapper E types func).method.name = E.camelCase (join ((split func.name).drop 1)) ∧
    (makeWrapper E types func).method.params = (func.parameters.map Prod.snd).drop 1 ++ ["cb"] ∧
    (makeWrapper E types func).method.metadata.parameters
      = (func.parameters.map Prod.snd).drop 1 ++ ["cb"] ∧
    ∀ post : List FunctionSpec,
      (∀ a ∈ (generateWrappers E types post).attached,
        ¬ (a.owner = Owner.ext (typeNameOf E func.name) ∧
            a.methodName = E.camelCase (join ((split func.name).drop 1)))) →
      Proto.lookup (applyAttachments p (generateWrappers E types (pre ++ func :: post)).attached)
          (Owner.ext (typeNameOf E func.name)) (E.camelCase (join ((split func.name).drop 1)))
        = some (Member.method (makeWrapper E types func).method) := by
  have hUi : (typeNameOf E func.name != "Ui") = true := by
    simp only [isGlobal, Bool.or_eq_false_iff] at hext
    simp [bne, hext.2]
  have ho : (makeWrapper E types func).owner = some (Owner.ext (typeNameOf E func.name)) := by
    rw [makeWrapper_owner]; simp [hext, hreg]
  have hn : (makeWrapper E types func).methodName
      = E.camelCase (join ((split func.name).drop 1)) := by
    rw [makeWrapper_methodName, hUi]; rfl
  have hp : (makeWrapper E types func).method.callParams
      = (func.parameters.map Prod.snd).drop 1 := by
    rw [makeWrapper_callParams]; simp [hext]
  have ha := generateWrappers_attaches E types func _ hparse ho pre hpre p
  rw [hn] at ha
  refine ⟨ha.1, hn, ?_, ?_, ha.2⟩
  · rw [makeWrapper_params, hp]
  · rw [makeWrapper_parameters, hp]

/-- C8, amended, at `buffer_get_line` with the type `Buffer`, after `nvim_command` and before
`ui_try_resize`: the prototype of `Buffer` holds `getLine(index, cb)`. -/
theorem ext_method_naming_witness :
    typeNameOf sampleEnv bufferGetLine.name ∈ ["Buffer"] ∧
    isGlobal (typeNameOf sampleEnv bufferGetLine.name) = false ∧
    sampleEnv.parses (makeWrapper sampleEnv ["Buffer"] bufferGetLine).text = true ∧
    (generateWrappers sampleEnv ["Buffer"] [nvimCommand]).error = none ∧
    (∀ a ∈ (generateWrappers sampleEnv ["Buffer"] [uiTryResize]).attached,
      ¬ (a.owner = Owner.ext (typeNameOf sampleEnv bufferGetLine.name) ∧
          a.methodName = sampleEnv.camelCase (join ((split bufferGetLine.name).drop 1)))) ∧
    Proto.lookup
        (applyAttachments []
          (generateWrappers sampleEnv ["Buffer"]
            ([nvimCommand] ++ bufferGetLine :: [uiTryResize])).attached)
        (Owner.ext (typeNameOf sampleEnv bufferGetLine.name))
        (sampleEnv.camelCase (join ((split bufferGetLine.name).drop 1)))
      = some (Member.method (makeWrapper sampleEnv ["Buffer"] bufferGetLine).method) ∧
    sampleEnv.camelCase (join ((split bufferGetLine.name).drop 1)) = "getLine" ∧
    (makeWrapper sampleEnv ["Buffer"] bufferGetLine).method.params = ["index", "cb"] :=
  have h1 : typeNameOf sampleEnv bufferGetLine.name ∈ ["Buffer"] := by decide
  have h2 : isGlobal (typeNameOf sampleEnv bufferGetLine.name) = false := by decide
  have h3 : sampleEnv.parses (makeWrapper sampleEnv ["Buffer"] bufferGetLine).text = true := by
    decide
  have h4 : (generateWrappers sampleEnv ["Buffer"] [nvimCommand]).error = none := by decide
  have h5 : ∀ a ∈ (generateWrappers sampleEnv ["Buffer"] [uiTryResize]).attached,
      ¬ (a.owner = Owner.ext (typeNameOf sampleEnv bufferGetLine.name) ∧
          a.methodName = sampleEnv.camelCase (join ((split bufferGetLine.name).drop 1))) := by
    decide
  have h := ext_method_naming sampleEnv ["Buffer"] bufferGetLine [nvimCommand] [] h1 h2 h3 h4
  ⟨h1, h2, h3, h4, h5, h.2.2.2.2 [uiTryResize] h5, by decide, h.2.2.1⟩

/-- C9, as stated, fails: for `nvim_delete` the text of the method is refused with a
`SyntaxError` and nothing is attached to the facade; after `window_get_height`, whose owner is
unknown, `nvim_command` is not reached and nothing is attached to the facade. -/
theorem reserved_word_method_not_attached :
    firstSegment nvimDelete.name = "nvim" ∧
    sampleEnv.camelCase (join ((split nvimDelete.name).drop 1)) = "delete" ∧
    sampleEnv.parses (makeWrapper sampleEnv [] nvimDelete).text = false ∧
    generateWrappers sampleEnv [] [nvimDelete]
      = { attached := [], error := some (Thrown.syntaxError "Unexpected token") } ∧
    Proto.lookup (applyAttachments [] (generateWrappers sampleEnv [] [nvimDelete]).attached)
        Owner.facade "delete" = none ∧
    firstSegment nvimCommand.name = "nvim" ∧
    (generateWrappers sampleEnv [] [windowGetHeight, nvimCommand]).attached = [] ∧
    Proto.lookup
        (applyAttachments [] (generateWrappers sampleEnv [] [windowGetHeight, nvimCommand]).attached)
        Owner.facade "command" = none := by
  decide

/-- C9, amended: when the first segment of the name is `nvim` or `vim`, the text of the method
is accepted by `new Function`, and the loop does not throw on the functions before it, then
after its iteration the prototype of the facade holds, under the camel-cased segments after the
first, the generated method, whose parameters are all the parameter names, then `cb`; the
method is still there at the end of the loop unless a later function is assigned to the facade
under the same name. -/
theorem global_method_naming (E : Env) (types : List String) (func : FunctionSpec)
    (pre : List FunctionSpec) (p : Proto)
    (hseg : firstSegment func.name = "nvim" ∨ firstSegment func.name = "vim")
    (hparse : E.parses (makeWrapper E types func).text = true)
    (hpre : (generateWrappers E types pre).error = none) :
    Proto.lookup (applyAttachments p (generateWrappers E types (pre ++ [func])).attached)
        Owner.facade (E.camelCase (join ((split func.name).drop 1)))
      = some (Member.method (makeWrapper E types func).method) ∧
    (makeWrapper E types func).method.name = E.camelCase (join ((split func.name).drop 1)) ∧
    (makeWrapper E types func).method.params = func.parameters.map Prod.snd ++ ["cb"] ∧
    (makeWrapper E types func).method.metadata.parameters
      = func.parameters.map Prod.snd ++ ["cb"] ∧
    ∀ post : List FunctionSpec,
      (∀ a ∈ (generateWrappers E types post).attached,
        ¬ (a.owner = Owner.facade ∧
            a.methodName = E.camelCase (join ((split func.name).drop 1)))) →
      Proto.lookup (applyAttachments p (generateWrappers E types (pre ++ func :: post)).attached)
          Owner.facade (E.camelCase (join ((split func.name).drop 1)))
        = some (Member.method (makeWrapper E types func).method) := by
  have ht : typeNameOf E func.name = "Nvim" ∨ typeNameOf E func.name = "Vim" := by
    rcases hseg with h | h
    · left; simp only [typeNameOf, h]; rw [capitalize_ascii E "nvim" (by decide)]; decide
    · right; simp only [typeNameOf, h]; rw [capitalize_ascii E "vim" (by decide)]; decide
  have hg : isGlobal (typeNameOf E func.name) = true := by
    rcases ht with h | h <;> simp only [h] <;> decide
  have hUi : (typeNameOf E func.name != "Ui") = true := by
    rcases ht with h | h <;> simp only [h] <;> decide
  have ho : (makeWrapper E types func).owner = some Owner.facade := by
    rw [makeWrapper_owner]; simp [hg]
  have hn : (makeWrapper E types func).methodName
      = E.camelCase (join ((split func.name).drop 1)) := by
    rw [makeWrapper_methodName, hUi]; rfl
  have hp : (makeWrapper E types func).method.callParams = func.parameters.map Prod.snd := by
    rw [makeWrapper_callParams]; simp [hg]
  have ha := generateWrappers_attaches E types func _ hparse ho pre hpre p
  rw [hn] at ha
  refine ⟨ha.1, hn, ?_, ?_, ha.2⟩
  · rw [makeWrapper_params, hp]
  · rw [makeWrapper_parameters, hp]

/-- C9, amended, at `nvim_command`, after `buffer_get_line` and before `ui_try_resize`: the
prototype of the facade holds `command(command, cb)`. -/
theorem global_method_naming_witness :
    (firstSegment nvimCommand.name = "nvim" ∨ firstSegment nvimCommand.name = "vim") ∧
    sampleEnv.parses (makeWrapper sampleEnv ["Buffer"] nvimCommand).text = true ∧
    (generateWrappers sampleEnv ["Buffer"] [bufferGetLine]).error = none ∧
    (∀ a ∈ (generateWrappers sampleEnv ["Buffer"] [uiTryResize]).attached,
      ¬ (a.owner = Owner.facade ∧
          a.methodName = sampleEnv.camelCase (join ((split nvimCommand.name).drop 1)))) ∧
    Proto.lookup
        (applyAttachments []
          (generateWrappers sampleEnv ["Buffer"]
            ([bufferGetLine] ++ nvimCommand :: [uiTryResize])).attached)
        Owner.facade (sampleEnv.camelCase (join ((split nvimCommand.name).drop 1)))
      = some (Member.method (makeWrapper sampleEnv ["Buffer"] nvimCommand).method) ∧
    sampleEnv.camelCase (join ((split nvimCommand.name).drop 1)) = "command" ∧
    (makeWrapper sampleEnv ["Buffer"] nvimCommand).method.params = ["command", "cb"] :=
  have h1 : firstSegment nvimCommand.name = "nvim" ∨ firstSegment nvimCommand.name = "vim" :=
    Or.inl (by decide)
  have h3 : sampleEnv.parses (makeWrapper sampleEnv ["Buffer"] nvimCommand).text = true := by
    decide
  have h4 : (generateWrappers sampleEnv ["Buffer"] [bufferGetLine]).error = none := by decide
  have h5 : ∀ a ∈ (generateWrappers sampleEnv ["Buffer"] [uiTryResize]).attached,
      ¬ (a.owner = Owner.facade ∧
          a.methodName = sampleEnv.camelCase (join ((split nvimCommand.name).drop 1))) := by
    decide
  have h := global_method_naming sampleEnv ["Buffer"] nvimCommand [bufferGetLine] [] h1 h3 h4
  ⟨h1, h3, h4, h5, h.2.2.2.2 [uiTryResize] h5, by decide, h.2.2.1⟩

/-- C10, as stated, fails: the first segment of `Ui_try_resize` is not `ui`, and yet the method
name is the camel-casing of the entire name and not of the segments after the first. -/
theorem capital_Ui_keeps_first_segment :
    firstSegment "Ui_try_resize" ≠ "ui" ∧
    (makeWrapper sampleEnv [] { uiTryResize with name := "Ui_try_resize" }).methodName
      = sampleEnv.camelCase "Ui_try_resize" ∧
    (makeWrapper sampleEnv [] { uiTryResize with name := "Ui_try_resize" }).methodName
      = "uiTryResize" ∧
    sampleEnv.camelCase (join ((split "Ui_try_resize").drop 1)) = "tryResize" ∧
    (makeWrapper sampleEnv [] { uiTryResize with name := "Ui_try_resize" }).methodName
      ≠ sampleEnv.camelCase (join ((split "Ui_try_resize").drop 1)) := by
  decide

/-- C10, amended: when the first segment capitalises to `Ui`, as `ui` does, the method goes to
the facade and is named by the camel-casing of the entire name; otherwise it is named by the
camel-casing of the segments after the first. -/
theorem ui_method_naming (E : Env) (types : List String) (func : FunctionSpec) :
    (firstSegment func.name = "ui" → typeNameOf E func.name = "Ui") ∧
    (typeNameOf E func.name = "Ui" →
      (makeWrapper E types func).owner = some Owner.facade ∧
      (makeWrapper E types func).methodName = E.camelCase func.name) ∧
    (typeNameOf E func.name ≠ "Ui" →
      (makeWrapper E types func).methodName
        = E.camelCase (join ((split func.name).drop 1))) := by
  refine ⟨?_, ?_, ?_⟩
  · intro h
    simp only [typeNameOf, h]; rw [capitalize_ascii E "ui" (by decide)]; decide
  · intro h
    constructor
    · rw [makeWrapper_owner]; simp [h, isGlobal]
    · rw [makeWrapper_methodName, h]
      simp [join_split]
  · intro h
    rw [makeWrapper_methodName]
    simp [h]

/-- C10, amended, at `ui_try_resize` (named `uiTryResize`, on the facade) and at
`buffer_get_line` (named `getLine`). -/
theorem ui_method_naming_witness :
    firstSegment uiTryResize.name = "ui" ∧
    typeNameOf sampleEnv uiTryResize.name = "Ui" ∧
    (makeWrapper sampleEnv [] uiTryResize).owner = some Owner.facade ∧
    (makeWrapper sampleEnv [] uiTryResize).methodName = sampleEnv.camelCase "ui_try_resize" ∧
    sampleEnv.camelCase "ui_try_resize" = "uiTryResize" ∧
    typeNameOf sampleEnv bufferGetLine.name ≠ "Ui" ∧
    (makeWrapper sampleEnv [] bufferGetLine).methodName = sampleEnv.camelCase "get_line" :=
  have h1 : firstSegment uiTryResize.name = "ui" := by decide
  have h2 := (ui_method_naming sampleEnv [] uiTryResize).1 h1
  have h3 := (ui_method_naming sampleEnv [] uiTryResize).2.1 h2
  have h4 : typeNameOf sampleEnv bufferGetLine.name ≠ "Ui" := by decide
  have h5 := (ui_method_naming sampleEnv [] bufferGetLine).2.2 h4
  ⟨h1, h2, h3.1, h3.2, by decide, h4, h5⟩

theorem char_range (c : Char) : c.toNat < 0xD800 ∨ (0xDFFF < c.toNat ∧ c.toNat < 0x110000) := by
  have h := c.valid
  simp only [UInt32.isValidChar, Nat.isValidChar] at h
  exact h

theorem utf8Run_cons (st : Utf8State) (b : Nat) (bs : List Nat) :
    utf8Run st (b :: bs) = (utf8Step st b).2 ++ utf8Run (utf8Step st b).1 bs := rfl

theorem utf8Step_init (b : Nat) : utf8Step Utf8State.init b = utf8Lead b := by
  simp [utf8Step, Utf8State.init]

theorem utf8Step_last (st : Utf8State) (b : Nat) (hn : st.bytesNeeded ≠ 0)
    (hl : st.lower ≤ b) (hu : b ≤ st.upper) (hs : st.bytesSeen + 1 = st.bytesNeeded) :
    utf8Step st b = (Utf8State.init, [Char.ofNat (st.codePoint * 64 + (b - 0x80))]) := by
  unfold utf8Step
  rw [if_neg hn, if_neg (by omega), if_pos hs]

theorem utf8Step_more (st : Utf8State) (b : Nat) (hn : st.bytesNeeded ≠ 0)
    (hl : st.lower ≤ b) (hu : b ≤ st.upper) (hs : st.bytesSeen + 1 ≠ st.bytesNeeded) :
    utf8Step st b
      = ({ codePoint := st.codePoint * 64 + (b - 0x80), bytesSeen := st.bytesSeen + 1
           bytesNeeded := st.bytesNeeded, lower := 0x80, upper := 0xBF }, []) := by
  unfold utf8Step
  rw [if_neg hn, if_neg (by omega), if_neg hs]

theorem utf8Lead_one (b : Nat) (h : b ≤ 0x7F) :
    utf8Lead b = (Utf8State.init, [Char.ofNat b]) := by
  unfold utf8Lead
  rw [if_pos h]

theorem utf8Lead_two (b : Nat) (h1 : 0xC2 ≤ b) (h2 : b ≤ 0xDF) :
    utf8Lead b
      = ({ codePoint := b - 0xC0, bytesSeen := 0, bytesNeeded := 1, lower := 0x80, upper := 0xBF },
          []) := by
  unfold utf8Lead
  rw [if_neg (by omega), if_pos ⟨h1, h2⟩]
  rfl

theorem utf8Lead_three (b : Nat) (h1 : 0xE0 ≤ b) (h2 : b ≤ 0xEF) :
    utf8Lead b
      = ({ codePoint := b - 0xE0, bytesSeen := 0, bytesNeeded := 2
           lower := if b = 0xE0 then 0xA0 else 0x80
           upper := if b = 0xED then 0x9F else 0xBF }, []) := by
  unfold utf8Lead
  rw [if_neg (by omega), if_neg (by omega), if_pos ⟨h1, h2⟩]

theorem utf8Lead_four (b : Nat) (h1 : 0xF0 ≤ b) (h2 : b ≤ 0xF4) :
    utf8Lead b
      = ({ codePoint := b - 0xF0, bytesSeen := 0, bytesNeeded := 3
           lower := if b = 0xF0 then 0x90 else 0x80
           upper := if b = 0xF4 then 0x8F else 0xBF }, []) := by
  unfold utf8Lead
  rw [if_neg (by omega), if_neg (by omega), if_neg (by omega), if_pos ⟨h1, h2⟩]

/-- The decoder reads the encoding of a character back as that character. -/
theorem utf8Run_encodeChar (c : Char) (rest : List Nat) :
    utf8Run Utf8State.init (utf8EncodeChar c ++ rest) = c :: utf8Run Utf8State.init rest := by
  have hr := char_range c
  have hc : Char.ofNat c.toNat = c := Char.ofNat_toNat c
  unfold utf8EncodeChar
  generalize c.toNat = n at hr hc
  simp only []
  by_cases h1 : n < 0x80
  · rw [if_pos h1, List.singleton_append, utf8Run_cons, utf8Step_init, utf8Lead_one n (by omega),
      hc]
    rfl
  · rw [if_neg h1]
    by_cases h2 : n < 0x800
    · rw [if_pos h2]
      simp only [List.cons_append, List.nil_append]
      rw [utf8Run_cons, utf8Step_init, utf8Lead_two _ (by omega) (by omega)]
      simp only [List.nil_append]
      rw [utf8Run_cons, utf8Step_last _ _ (by simp) (by simp) (by simp; omega) (by simp)]
      simp only [List.singleton_append]
      have e : (0xC0 + n / 64 - 0xC0) * 64 + (0x80 + n % 64 - 0x80) = n := by omega
      rw [e, hc]
    · rw [if_neg h2]
      by_cases h3 : n < 0x10000
      · rw [if_pos h3]
        simp only [List.cons_append, List.nil_append]
        rw [utf8Run_cons, utf8Step_init, utf8Lead_three _ (by omega) (by omega)]
        simp only [List.nil_append]
        rw [utf8Run_cons, utf8Step_more _ _ (by simp) (by simp; split <;> omega)
          (by simp; split <;> omega) (by simp)]
        simp only [List.nil_append]
        rw [utf8Run_cons, utf8Step_last _ _ (by simp) (by simp) (by simp; omega) (by simp)]
        simp only [List.singleton_append]
        have e : ((0xE0 + n / 4096 - 0xE0) * 64 + (0x80 + n / 64 % 64 - 0x80)) * 64
            + (0x80 + n % 64 - 0x80) = n := by omega
        rw [e, hc]
      · rw [if_neg h3]
        simp only [List.cons_append, List.nil_append]
        rw [utf8Run_cons, utf8Step_init, utf8Lead_four _ (by omega) (by omega)]
        simp only [List.nil_append]
        rw [utf8Run_cons, utf8Step_more _ _ (by simp) (by simp; split <;> omega)
          (by simp; split <;> omega) (by simp)]
        simp only [List.nil_append]
        rw [utf8Run_cons, utf8Step_more _ _ (by simp) (by simp) (by simp; omega) (by simp)]
        simp only [List.nil_append]
        rw [utf8Run_cons, utf8Step_last _ _ (by simp) (by simp) (by simp; omega) (by simp)]
        simp only [List.singleton_append]
        have e : (((0xF0 + n / 262144 - 0xF0) * 64 + (0x80 + n / 4096 % 64 - 0x80)) * 64
            + (0x80 + n / 64 % 64 - 0x80)) * 64 + (0x80 + n % 64 - 0x80) = n := by omega
        rw [e, hc]

theorem utf8Run_encodeChars (cs : List Char) :
    utf8Run Utf8State.init (utf8EncodeChars cs) = cs := by
  induction cs with
  | nil => rfl
  | cons c cs ih => rw [utf8EncodeChars, utf8Run_encodeChar, ih]

/-- The decoder yields the text for the bytes that encode it. -/
theorem utf8Decode_utf8Bytes (s : String) : utf8Decode (utf8Bytes s) = s := by
  simp [utf8Decode, utf8Bytes, utf8Run_encodeChars]

theorem nodeEnv_decodes (s : String) : nodeEnv.toStringUtf8 (utf8Bytes s) = s :=
  utf8Decode_utf8Bytes s

/-- The first byte of the encoding of a character is at most 0xF4. -/
theorem utf8EncodeChar_head (c : Char) :
    ∃ b rest, utf8EncodeChar c = b :: rest ∧ b ≤ 0xF4 := by
  have hr := char_range c
  unfold utf8EncodeChar
  generalize c.toNat = n at hr
  simp only []
  split
  · exact ⟨_, _, rfl, by omega⟩
  · split
    · exact ⟨_, _, rfl, by omega⟩
    · split
      · exact ⟨_, _, rfl, by omega⟩
      · exact ⟨_, _, rfl, by omega⟩

/-- No text is encoded by the single byte 0xFF. -/
theorem not_utf8_ff (s : String) : utf8Bytes s ≠ [0xFF] := by
  unfold utf8Bytes
  cases s.toList with
  | nil => simp [utf8EncodeChars]
  | cons c cs =>
    obtain ⟨b, rest, h, hb⟩ := utf8EncodeChar_head c
    rw [utf8EncodeChars, h]
    intro heq
    simp only [List.cons_append, List.cons.injEq] at heq
    omega

mutual
/-- The walk below the root changes nothing when it is run a second time. -/
theorem visit_visit (E : Env) : ∀ v : Value, visit E (visit E v) = visit E v
  | .undefined => rfl
  | .null => rfl
  | .bool _ => rfl
  | .num _ => rfl
  | .str _ => rfl
  | .buf _ => rfl
  | .session => rfl
  | .func _ => rfl
  | .arr xs => by simp only [visit, visitList_visitList E xs]
  | .obj fs => by simp only [visit, visitFields_visitFields E fs]
  | .handle t d => by simp only [visit, visit_visit E d]
/-- The same for the elements of an array. -/
theorem visitList_visitList (E : Env) :
    ∀ xs : List Value, visitList E (visitList E xs) = visitList E xs
  | [] => rfl
  | x :: xs => by simp only [visitList, visit_visit E x, visitList_visitList E xs]
/-- The same for the members of a map. -/
theorem visitFields_visitFields (E : Env) :
    ∀ fs : List (String × Value), visitFields E (visitFields E fs) = visitFields E fs
  | [] => rfl
  | (_, v) :: fs => by simp only [visitFields, visit_visit E v, visitFields_visitFields E fs]
end

mutual
/-- Below the root, the walk leaves what `Normalized` asks for, when `toString('utf8')` yields
the text for valid UTF-8. -/
theorem normalized_visit (E : Env) (hE : ∀ s, E.toStringUtf8 (utf8Bytes s) = s) :
    ∀ v : Value, Normalized v (visit E v)
  | .undefined => by simp [Normalized, visit]
  | .null => by simp [Normalized, visit]
  | .bool _ => by simp [Normalized, visit]
  | .num _ => by simp [Normalized, visit]
  | .str _ => by simp [Normalized, visit]
  | .buf b => by
    intro s hs
    simp only [visit, hs, hE]
  | .session => by simp [Normalized, visit]
  | .func _ => by simp [Normalized, visit]
  | .arr xs => ⟨visitList E xs, by simp only [visit], normalizedList_visit E hE xs⟩
  | .obj fs => ⟨visitFields E fs, by simp only [visit], normalizedFields_visit E hE fs⟩
  | .handle _ _ => trivial
/-- The same for the elements of an array. -/
theorem normalizedList_visit (E : Env) (hE : ∀ s, E.toStringUtf8 (utf8Bytes s) = s) :
    ∀ xs : List Value, NormalizedList xs (visitList E xs)
  | [] => rfl
  | x :: xs =>
    ⟨visit E x, visitList E xs, rfl, normalized_visit E hE x, normalizedList_visit E hE xs⟩
/-- The same for the members of a map. -/
theorem normalizedFields_visit (E : Env) (hE : ∀ s, E.toStringUtf8 (utf8Bytes s) = s) :
    ∀ fs : List (String × Value), NormalizedFields fs (visitFields E fs)
  | [] => rfl
  | (_, v) :: fs =>
    ⟨visit E v, visitFields E fs, rfl, normalized_visit E hE v, normalizedFields_visit E hE fs⟩
end

/-- On two handles with `Buffer` payloads, `equals` compares the texts that `toString` yields
for the payloads. -/
theorem equals_buffers (E : Env) (t u : String) (a b : List Nat) :
    equals E (Value.handle t (Value.buf a)) (Value.handle u (Value.buf b))
      = (E.toStringUtf8 a == E.toStringUtf8 b) := rfl

theorem dataString_eq_none (E : Env) (v : Value) (h : hasData v = false) :
    dataString E v = none := by
  cases v with
  | handle t d => simp [hasData] at h
  | obj fs =>
    have hl : List.lookup "_data" fs = none := by
      cases hk : List.lookup "_data" fs with
      | none => rfl
      | some d => simp [hasData, hk] at h
    simp [dataString, getData, hl, toStringOf]
  | _ => simp [dataString, getData, toStringOf]

/-- A function whose owner does not resolve makes the loop end with an exception, wherever it
stands in the list: the `TypeError` of line 77 for it, or the exception of a function before
it. -/
theorem generateWrappers_error (E : Env) (types : List String) :
    ∀ fs : List FunctionSpec, (∃ f ∈ fs, (makeWrapper E types f).owner = none) →
      (generateWrappers E types fs).error ≠ none := by
  intro fs
  induction fs with
  | nil => intro h; simp at h
  | cons f fs ih =>
    intro h
    cases hp : E.parses (makeWrapper E types f).text with
    | false => rw [generateWrappers_cons_refused E types f fs hp]; simp
    | true =>
      cases ho : (makeWrapper E types f).owner with
      | none => rw [generateWrappers_cons_type E types f fs hp ho]; simp
      | some o =>
        rw [generateWrappers_cons_ok E types f fs o hp ho]
        apply ih
        obtain ⟨g, hg, hgo⟩ := h
        rcases List.mem_cons.mp hg with rfl | hmem
        · rw [ho] at hgo; cases hgo
        · exact ⟨g, hmem, hgo⟩

/-- A loop over the types that does not throw has registered all of them. -/
theorem registerTypes_registered (E : Env) :
    ∀ names : List String, (registerTypes E names).error = none →
      (registerTypes E names).registered = names := by
  intro names
  induction names with
  | nil => intro _; rfl
  | cons n ns ih =>
    intro h
    cases hp : E.parses (typeText n) with
    | false => simp [registerTypes, hp] at h
    | true =>
      simp only [registerTypes, hp, if_true] at h ⊢
      rw [ih h]

theorem listeners_onRequest (E : Env) (m a : Value) (r : Nat) (ls : List Listener) :
    ∀ s : State,
      (ls.foldl (fun t l => onRequest E t l m a r) s).requestListeners = s.requestListeners ∧
      (ls.foldl (fun t l => onRequest E t l m a r) s).notificationListeners
        = s.notificationListeners := by
  induction ls with
  | nil => intro s; exact ⟨rfl, rfl⟩
  | cons l ls ih =>
    intro s
    rw [List.foldl_cons, (ih _).1, (ih _).2]
    cases l with
    | queue => simp only [onRequest, queueRequests]; split <;> simp
    | direct => simp [onRequest, emitRequest]

theorem listeners_onNotification (E : Env) (m a : Value) (ls : List Listener) :
    ∀ s : State,
      (ls.foldl (fun t l => onNotification E t l m a) s).requestListeners
        = s.requestListeners ∧
      (ls.foldl (fun t l => onNotification E t l m a) s).notificationListeners
        = s.notificationListeners := by
  induction ls with
  | nil => intro s; exact ⟨rfl, rfl⟩
  | cons l ls ih =>
    intro s
    rw [List.foldl_cons, (ih _).1, (ih _).2]
    cases l <;> simp [onNotification, queueNotifications, emitNotification]

/-- A metadata response whose processing throws records the exception and leaves the listeners,
the queue and the emitted events as they are. -/
theorem step_apiInfo_throws (E : Env) (s : State) (res : ApiInfo)
    (h : ¬ bootstrapCompletes E res) :
    ∃ t, (step E s (Input.apiInfo none res)).thrown = s.thrown ++ [t] ∧
      (step E s (Input.apiInfo none res)).requestListeners = s.requestListeners ∧
      (step E s (Input.apiInfo none res)).notificationListeners = s.notificationListeners ∧
      (step E s (Input.apiInfo none res)).emitted = s.emitted ∧
      (step E s (Input.apiInfo none res)).pendingRPCs = s.pendingRPCs := by
  cases hr : (registerTypes E (res.metadata.types.map Prod.fst)).error with
  | some t => exact ⟨t, by simp [step, onApiInfo, hr]⟩
  | none =>
    cases hg : (generateWrappers E (registerTypes E (res.metadata.types.map Prod.fst)).registered
        res.metadata.functions).error with
    | some t => exact ⟨t, by simp [step, onApiInfo, hr, hg]⟩
    | none => exact absurd ⟨hr, hg⟩ h

/-- No direct listener gets registered as long as every metadata response fails or throws. -/
theorem no_direct_run (E : Env) (inputs : List Input) :
    ∀ s : State,
      Listener.direct ∉ s.requestListeners → Listener.direct ∉ s.notificationListeners →
      (∀ res, Input.apiInfo none res ∈ inputs → ¬ bootstrapCompletes E res) →
      Listener.direct ∉ (run E s inputs).requestListeners ∧
      Listener.direct ∉ (run E s inputs).notificationListeners := by
  induction inputs with
  | nil => intro s h1 h2 _; exact ⟨h1, h2⟩
  | cons i is ih =>
    intro s h1 h2 hres
    rw [run_cons]
    have hstep : (step E s i).requestListeners = s.requestListeners ∧
        (step E s i).notificationListeners = s.notificationListeners ∨
        (step E s i).requestListeners = [] ∧ (step E s i).notificationListeners = [] := by
      cases i with
      | request m a r => exact Or.inl (listeners_onRequest E m a r _ s)
      | notification m a => exact Or.inl (listeners_onNotification E m a _ s)
      | detach => exact Or.inr (by simp [step, onDetach])
      | apiInfo err res =>
        cases err with
        | some e => exact Or.inl ⟨rfl, rfl⟩
        | none =>
          obtain ⟨t, _, h3, h4, _⟩ := step_apiInfo_throws E s res (hres res (by simp))
          exact Or.inl ⟨h3, h4⟩
    apply ih
    · rcases hstep with h | h
      · rw [h.1]; exact h1
      · rw [h.1]; simp
    · rcases hstep with h | h
      · rw [h.2]; exact h2
      · rw [h.2]; simp
    · intro res hmem
      exact hres res (List.mem_cons_of_mem _ hmem)

/-- C11, as stated, fails: `vim_command` and `ui_try_resize` go to the facade and keep all their
parameter types in `parameterTypes`. -/
theorem vim_and_ui_keep_first_type :
    (makeWrapper sampleEnv [] vimCommand).owner = some Owner.facade ∧
    (makeWrapper sampleEnv [] vimCommand).method.metadata.parameterTypes = ["String"] ∧
    (makeWrapper sampleEnv [] vimCommand).method.metadata.parameterTypes
      ≠ (vimCommand.parameters.map Prod.fst).drop 1 ∧
    (makeWrapper sampleEnv [] uiTryResize).owner = some Owner.facade ∧
    (makeWrapper sampleEnv [] uiTryResize).method.metadata.parameterTypes
      = ["Integer", "Integer"] := by
  decide

/-- C11, amended: `parameterTypes` holds the parameter types in order, without the first when
the capitalised first segment is `Nvim` and all of them otherwise; `parameters` is the list of
formal parameters: the exposed parameter names, then `cb`. -/
theorem metadata_parameter_types (E : Env) (types : List String) (func : FunctionSpec) :
    (typeNameOf E func.name = "Nvim" →
      (makeWrapper E types func).method.metadata.parameterTypes
        = (func.parameters.map Prod.fst).drop 1) ∧
    (typeNameOf E func.name ≠ "Nvim" →
      (makeWrapper E types func).method.metadata.parameterTypes
        = func.parameters.map Prod.fst) ∧
    (makeWrapper E types func).method.metadata.parameters
      = (makeWrapper E types func).method.params ∧
    (makeWrapper E types func).method.params
      = (if isGlobal (typeNameOf E func.name) then func.parameters.map Prod.snd
          else (func.parameters.map Prod.snd).drop 1) ++ ["cb"] := by
  have hp : (makeWrapper E types func).method.metadata.parameterTypes
      = if typeNameOf E func.name == "Nvim" then (func.parameters.map Prod.fst).drop 1
        else func.parameters.map Prod.fst := rfl
  refine ⟨?_, ?_, rfl, ?_⟩
  · intro h; rw [hp]; simp [h]
  · intro h; rw [hp]; simp [h]
  · rw [makeWrapper_params, makeWrapper_callParams]

/-- C11, amended, at `nvim_command` (no type left) and `buffer_get_line` (both types kept). -/
theorem metadata_parameter_types_witness :
    typeNameOf sampleEnv nvimCommand.name = "Nvim" ∧
    (makeWrapper sampleEnv ["Buffer"] nvimCommand).method.metadata.parameterTypes = [] ∧
    typeNameOf sampleEnv bufferGetLine.name ≠ "Nvim" ∧
    (makeWrapper sampleEnv ["Buffer"] bufferGetLine).method.metadata.parameterTypes
      = ["Buffer", "Integer"] ∧
    (makeWrapper sampleEnv ["Buffer"] bufferGetLine).method.metadata.parameters
      = ["index", "cb"] :=
  have h1 : typeNameOf sampleEnv nvimCommand.name = "Nvim" := by decide
  have h2 : typeNameOf sampleEnv bufferGetLine.name ≠ "Nvim" := by decide
  have hn := metadata_parameter_types sampleEnv ["Buffer"] nvimCommand
  have hb := metadata_parameter_types sampleEnv ["Buffer"] bufferGetLine
  ⟨h1, hn.1 h1, h2, hb.2.1 h2, hb.2.2.1.trans (by decide)⟩

/-- C12: when a function of the metadata has an owner that is neither `Nvim`, `Vim`, `Ui` nor a
key of the `types` map, wrapper generation ends with an exception; the metadata callback throws
and changes neither the listeners nor the queue nor the emitted events, and in every run in
which the metadata responses carry this document no direct listener is ever registered. -/
theorem unknown_owner_aborts (E : Env) (md : Metadata) (func : FunctionSpec)
    (hin : func ∈ md.functions)
    (hglobal : isGlobal (typeNameOf E func.name) = false)
    (htype : typeNameOf E func.name ∉ md.types.map Prod.fst) :
    (generateWrappers E (md.types.map Prod.fst) md.functions).error ≠ none ∧
    (∀ (s : State) (ch : Value), ∃ t,
      (step E s (Input.apiInfo none { channel_id := ch, metadata := md })).thrown
        = s.thrown ++ [t] ∧
      (step E s (Input.apiInfo none { channel_id := ch, metadata := md })).requestListeners
        = s.requestListeners ∧
      (step E s (Input.apiInfo none { channel_id := ch, metadata := md })).notificationListeners
        = s.notificationListeners ∧
      (step E s (Input.apiInfo none { channel_id := ch, metadata := md })).emitted
        = s.emitted ∧
      (step E s (Input.apiInfo none { channel_id := ch, metadata := md })).pendingRPCs
        = s.pendingRPCs) ∧
    ∀ inputs : List Input,
      (∀ err res, Input.apiInfo err res ∈ inputs → res.metadata = md) →
      Listener.direct ∉ (run E attach inputs).requestListeners ∧
      Listener.direct ∉ (run E attach inputs).notificationListeners := by
  have ho : (makeWrapper E (md.types.map Prod.fst) func).owner = none := by
    rw [makeWrapper_owner, if_neg (by simp [hglobal]), if_neg htype]
  have he := generateWrappers_error E (md.types.map Prod.fst) md.functions ⟨func, hin, ho⟩
  have hnot : ∀ res : ApiInfo, res.metadata = md → ¬ bootstrapCompletes E res := by
    intro res hmd hb
    obtain ⟨h1, h2⟩ := hb
    rw [registerTypes_registered E _ h1, hmd] at h2
    exact he h2
  refine ⟨he, ?_, ?_⟩
  · intro s ch
    exact step_apiInfo_throws E s { channel_id := ch, metadata := md } (hnot _ rfl)
  · intro inputs hall
    apply no_direct_run E inputs attach (by decide) (by decide)
    intro res hmem
    exact hnot res (hall none res hmem)

/-- C12, at a document that holds `window_get_height` and no type `Window`, with a notification
before the response and one after it: both are queued, none is emitted. -/
theorem unknown_owner_aborts_witness :
    windowGetHeight ∈ [nvimCommand, windowGetHeight, uiTryResize] ∧
    isGlobal (typeNameOf sampleEnv windowGetHeight.name) = false ∧
    typeNameOf sampleEnv windowGetHeight.name ∉ [("Buffer", 0)].map Prod.fst ∧
    (generateWrappers sampleEnv ([("Buffer", 0)].map Prod.fst)
        [nvimCommand, windowGetHeight, uiTryResize]).error ≠ none ∧
    (run sampleEnv attach
        [Input.notification (Value.str "m") (Value.arr []),
          Input.apiInfo none
            { channel_id := Value.num 1
              metadata :=
                { functions := [nvimCommand, windowGetHeight, uiTryResize]
                  types := [("Buffer", 0)] } },
          Input.notification (Value.str "n") (Value.arr [])]).emitted = [] :=
  have h1 : windowGetHeight ∈ [nvimCommand, windowGetHeight, uiTryResize] := by decide
  have h2 : isGlobal (typeNameOf sampleEnv windowGetHeight.name) = false := by decide
  have h3 : typeNameOf sampleEnv windowGetHeight.name ∉ [("Buffer", 0)].map Prod.fst := by
    decide
  have h := unknown_owner_aborts sampleEnv
    { functions := [nvimCommand, windowGetHeight, uiTryResize], types := [("Buffer", 0)] }
    windowGetHeight h1 h2 h3
  ⟨h1, h2, h3, h.1, rfl⟩

/-- C13: two handles whose payloads are the bytes `cc c8` and `cc c9` (the integers 200 and 201
in MessagePack) differ in their payload bytes, and `equals` returns `true` for them. -/
theorem distinct_payloads_compare_equal :
    ([0xCC, 0xC8] : List Nat) ≠ [0xCC, 0xC9] ∧
    equals nodeEnv (extDecode "Buffer" (Value.buf [0xCC, 0xC8]))
        (extDecode "Buffer" (Value.buf [0xCC, 0xC9])) = true ∧
    equals nodeEnv (extDecode "Buffer" (Value.buf [0xFF]))
        (extDecode "Buffer" (Value.buf [0xFE])) = true := by
  decide

/-- C14, as stated, fails: for a handle with payload byte `01` and the object
`{_data: <Buffer 01>}`, which is not a handle, `equals` returns `true`. -/
theorem equals_accepts_object_with_data :
    equals nodeEnv (extDecode "Buffer" (Value.buf [1]))
        (Value.obj [("_data", Value.buf [1])]) = true ∧
    equals nodeEnv (extDecode "Buffer" (Value.buf [1]))
        (Value.obj [("_data", Value.str (String.mk [Char.ofNat 1]))]) = true := by
  decide

/-- C14, amended: for a handle `a` and a value `v` that is neither a handle nor an object with a
`_data` key, `a.equals(v)` is `false`; `equals` returns a boolean in every case. -/
theorem equals_false_without_data (E : Env) (typeName : String) (data v : Value)
    (hv : hasData v = false) :
    equals E (Value.handle typeName data) v = false := by
  unfold equals
  rw [dataString_eq_none E v hv]
  cases dataString E (Value.handle typeName data) <;> rfl

/-- C14, amended, at `null`, `undefined`, a number, a string and an object without `_data`. -/
theorem equals_false_without_data_witness :
    hasData Value.null = false ∧
    equals nodeEnv (extDecode "Buffer" (Value.buf [1])) Value.null = false ∧
    equals nodeEnv (extDecode "Buffer" (Value.buf [1])) Value.undefined = false ∧
    equals nodeEnv (extDecode "Buffer" (Value.buf [1])) (Value.num 1) = false ∧
    equals nodeEnv (extDecode "Buffer" (Value.buf [1])) (Value.str "a") = false ∧
    equals nodeEnv (extDecode "Buffer" (Value.buf [1]))
      (Value.obj [("data", Value.buf [1])]) = false :=
  ⟨rfl,
    equals_false_without_data nodeEnv "Buffer" (Value.buf [1]) Value.null rfl,
    equals_false_without_data nodeEnv "Buffer" (Value.buf [1]) Value.undefined rfl,
    equals_false_without_data nodeEnv "Buffer" (Value.buf [1]) (Value.num 1) rfl,
    equals_false_without_data nodeEnv "Buffer" (Value.buf [1]) (Value.str "a") rfl,
    equals_false_without_data nodeEnv "Buffer" (Value.buf [1])
      (Value.obj [("data", Value.buf [1])]) (by decide)⟩

/-- C15: `decode` replaces the `Buffer` payload of a handle by a string, at the top level and
inside a container, so that the `encode` hook returns a string and not the bytes the handle was
constructed from. -/
theorem decode_rewrites_handle_payload (E : Env) (typeName : String) (bytes : List Nat) :
    decode E (extDecode typeName (Value.buf bytes))
      = Value.handle typeName (Value.str (E.toStringUtf8 bytes)) ∧
    decode E (Value.arr [extDecode typeName (Value.buf bytes)])
      = Value.arr [Value.handle typeName (Value.str (E.toStringUtf8 bytes))] ∧
    extEncode (extDecode typeName (Value.buf bytes)) = some (Value.buf bytes) ∧
    extEncode (decode E (extDecode typeName (Value.buf bytes)))
      = some (Value.str (E.toStringUtf8 bytes)) ∧
    extEncode (decode E (extDecode typeName (Value.buf bytes))) ≠ some (Value.buf bytes) := by
  refine ⟨rfl, rfl, rfl, rfl, ?_⟩
  simp [extEncode, extDecode, decode, visit, getData]

/-- C16: `decode` called on a `Buffer` returns the `Buffer`, for every byte sequence; for the
bytes of `specs` it does not return the text `specs`. -/
theorem decode_root_buffer_unchanged :
    (∀ (E : Env) (bytes : List Nat), decode E (Value.buf bytes) = Value.buf bytes) ∧
    decode nodeEnv (Value.buf (utf8Bytes "specs")) = Value.buf [115, 112, 101, 99, 115] ∧
    decode nodeEnv (Value.buf (utf8Bytes "specs")) ≠ Value.str "specs" := by
  refine ⟨fun _ _ => rfl, rfl, ?_⟩
  simp [decode]

/-- C17: a `Buffer` below the root is replaced by a string whatever its bytes are; the byte
`ff`, which is not valid UTF-8, becomes the text U+FFFD. -/
theorem invalid_leaf_becomes_text :
    (∀ (E : Env) (bytes : List Nat),
      decode E (Value.arr [Value.buf bytes]) = Value.arr [Value.str (E.toStringUtf8 bytes)]) ∧
    (∀ s : String, utf8Bytes s ≠ [0xFF]) ∧
    decode nodeEnv (Value.arr [Value.buf [0xFF]])
      = Value.arr [Value.str (String.mk [Char.ofNat 0xFFFD])] ∧
    decode nodeEnv (Value.arr [Value.buf [0xFF]]) ≠ Value.arr [Value.buf [0xFF]] := by
  refine ⟨fun _ _ => rfl, not_utf8_ff, rfl, ?_⟩
  simp [decode, visit, visitList]

/-- C18: when `toString('utf8')` yields the text for valid UTF-8, `decode` of a container turns
every valid UTF-8 byte sequence in it, at any depth, into the text it encodes, leaves every
other value that is neither a byte sequence nor a handle as it is, and keeps the keys, their
order and the lengths. -/
theorem containers_normalized (E : Env) (v : Value)
    (hE : ∀ s, E.toStringUtf8 (utf8Bytes s) = s) (hv : isContainer v = true) :
    Normalized v (decode E v) := by
  cases v with
  | arr xs => exact normalized_visit E hE (Value.arr xs)
  | obj fs => exact normalized_visit E hE (Value.obj fs)
  | _ => simp [isContainer] at hv

/-- C18, at an array that holds a byte sequence, a number and a map with a byte sequence. -/
theorem containers_normalized_witness :
    (∀ s, nodeEnv.toStringUtf8 (utf8Bytes s) = s) ∧
    isContainer
      (Value.arr [Value.buf [0x61, 0xE2, 0x82, 0xAC], Value.num 3,
        Value.obj [("k", Value.buf [0x68, 0x69])]]) = true ∧
    Normalized
      (Value.arr [Value.buf [0x61, 0xE2, 0x82, 0xAC], Value.num 3,
        Value.obj [("k", Value.buf [0x68, 0x69])]])
      (decode nodeEnv
        (Value.arr [Value.buf [0x61, 0xE2, 0x82, 0xAC], Value.num 3,
          Value.obj [("k", Value.buf [0x68, 0x69])]])) ∧
    decode nodeEnv
        (Value.arr [Value.buf [0x61, 0xE2, 0x82, 0xAC], Value.num 3,
          Value.obj [("k", Value.buf [0x68, 0x69])]])
      = Value.arr [Value.str "a€", Value.num 3, Value.obj [("k", Value.str "hi")]] :=
  ⟨nodeEnv_decodes, rfl, containers_normalized nodeEnv _ nodeEnv_decodes rfl, rfl⟩

/-- C19: `decode` applied to the result of `decode` returns that result, for every value. -/
theorem decode_idempotent (E : Env) (v : Value) : decode E (decode E v) = decode E v := by
  cases v <;> simp only [decode, visit, visit_visit, visitList_visitList, visitFields_visitFields]

/-- C20: on the facade generated from `sampleInfo`, `quit()` makes one `request` for
`nvim_command` with the arguments `["qa!"]` and the array `[]` as its callback; when the
transport completes that request, with a result or with an error, calling the array throws a
`TypeError`. -/
theorem quit_reply_throws :
    quit (run sampleEnv attach [Input.apiInfo none sampleInfo]).proto (Value.obj [])
      = Except.ok
          { calls := [TransportCall.request "nvim_command" [Value.str "qa!"] (Value.arr [])]
            returned := Value.undefined } ∧
    (∀ (E : Env) (err : Option (List Value)) (res : Value),
      (TransportCall.request "nvim_command" [Value.str "qa!"] (Value.arr [])).complete E err res
        = some (Outcome.threw (Thrown.typeError "cb is not a function"))) := by
  refine ⟨rfl, ?_⟩
  intro E err res
  rfl

end NodeClient
